import Mathlib

/-!
Statistics, aggregation and report assembly of llm-benchmark-cli: a shallow embedding of
`src/index.js`.

Numbers.  A JavaScript number is represented by `JSNum`: a finite value, the negative
zero, `Infinity`, `-Infinity` or `NaN`.  A finite value is carried as the rational it
denotes; every operation rounds its exact result to the nearest IEEE 754 binary64 value,
a tie going to the even mantissa, with gradual underflow and overflow to infinity
(`roundDouble`).  The numeric fields of a sample are integers, as in the data model; an
integer becomes the double nearest to it.

Effects.  The console is a list of messages; a function that logs takes the console and
returns the new one next to its value.
-/

namespace LlmBenchmark

/-! ## JavaScript numbers -/

/-- A JavaScript number: a finite value (`fin 0` is the positive zero), the negative
zero, `Infinity`, `-Infinity` or `NaN`. -/
inductive JSNum where
  | fin (q : ℚ)
  | negZero
  | posInf
  | negInf
  | nan
  deriving DecidableEq

namespace JSNum

/-- Rounding to the nearest integer, a tie going to the even one. -/
def roundHalfEven (q : ℚ) : ℤ :=
  let f := ⌊q⌋
  if q - f < 1 / 2 then f
  else if 1 / 2 < q - f then f + 1
  else if f % 2 = 0 then f else f + 1

/-- The binary64 value nearest to `x > 0`: 53 significant bits at the binary exponent of
`x`, not below the exponent `-1022` of the subnormal numbers; `Infinity` from `2^1024`. -/
def roundPos (x : ℚ) : JSNum :=
  let e := max (Int.log 2 x) (-1022)
  let y := (roundHalfEven (x / (2 : ℚ) ^ (e - 52)) : ℚ) * (2 : ℚ) ^ (e - 52)
  if (2 : ℚ) ^ (1024 : ℕ) ≤ y then posInf else fin y

/-- The unary minus. -/
def neg : JSNum → JSNum
  | fin q => if q = 0 then negZero else fin (-q)
  | negZero => fin 0
  | posInf => negInf
  | negInf => posInf
  | nan => nan

/-- The binary64 value nearest to the rational `x` (an exact zero is the positive zero). -/
def roundDouble (x : ℚ) : JSNum :=
  if x = 0 then fin 0 else if 0 < x then roundPos x else (roundPos (-x)).neg

/-- An integer of a parsed record as a number: the double nearest to it. -/
def ofInt (i : Int) : JSNum := roundDouble (i : ℚ)

/-- The zero of a sign. -/
def zeroOf (negative : Bool) : JSNum := if negative then negZero else fin 0

/-- The infinity of a sign. -/
def infOf (negative : Bool) : JSNum := if negative then negInf else posInf

/-- The JavaScript `+` on numbers. -/
def add : JSNum → JSNum → JSNum
  | fin a, fin b => roundDouble (a + b)
  | fin a, negZero => fin a
  | fin _, posInf => posInf
  | fin _, negInf => negInf
  | negZero, fin b => fin b
  | negZero, negZero => negZero
  | negZero, posInf => posInf
  | negZero, negInf => negInf
  | posInf, fin _ => posInf
  | posInf, negZero => posInf
  | posInf, posInf => posInf
  | posInf, negInf => nan
  | negInf, fin _ => negInf
  | negInf, negZero => negInf
  | negInf, posInf => nan
  | negInf, negInf => negInf
  | nan, _ => nan
  | _, nan => nan

/-- The JavaScript `/` on numbers. -/
def div : JSNum → JSNum → JSNum
  | fin a, fin b =>
    if b = 0 then (if a = 0 then nan else infOf (decide (a < 0)))
    else if a = 0 then zeroOf (decide (b < 0))
    else roundDouble (a / b)
  | fin a, negZero => if a = 0 then nan else infOf (decide (0 < a))
  | fin a, posInf => zeroOf (decide (a < 0))
  | fin a, negInf => zeroOf (decide (0 ≤ a))
  | negZero, fin b => if b = 0 then nan else zeroOf (decide (0 < b))
  | negZero, negZero => nan
  | negZero, posInf => negZero
  | negZero, negInf => fin 0
  | posInf, fin b => infOf (decide (b < 0))
  | posInf, negZero => negInf
  | negInf, fin b => infOf (decide (0 ≤ b))
  | negInf, negZero => posInf
  | posInf, posInf => nan
  | posInf, negInf => nan
  | negInf, posInf => nan
  | negInf, negInf => nan
  | nan, _ => nan
  | _, nan => nan

/-- The literal `1e9`. -/
def e9 : JSNum := fin 1000000000

/-- A rational that is a binary64 value: an integer below `2^53` in absolute value times
a power of two not below `2^-1074`, of absolute value below `2^1024`. -/
def IsDouble (y : ℚ) : Prop :=
  ∃ n e : ℤ, -1074 ≤ e ∧ |n| < 2 ^ 53 ∧ y = (n : ℚ) * (2 : ℚ) ^ e ∧ |y| < (2 : ℚ) ^ (1024 : ℕ)

/-- A number whose finite value is a binary64 value. -/
def WellFormed : JSNum → Prop
  | fin q => IsDouble q
  | _ => True

end JSNum

/-! ## Samples -/

/-- The raw record of a generation result, as parsed from the server's reply.
`load_duration` may be absent. -/
structure RawData where
  model : String
  created_at : String
  response : String
  done : Bool
  total_duration : Int
  load_duration : Option Int
  prompt_eval_count : Int
  prompt_eval_duration : Int
  eval_count : Int
  eval_duration : Int
  deriving DecidableEq

/-- The class `OllamaResponse`; `created_at` keeps the timestamp the `Date` is built from. -/
structure OllamaResponse where
  model : String
  created_at : String
  response : String
  done : Bool
  total_duration : Int
  load_duration : Int
  prompt_eval_count : Int
  prompt_eval_duration : Int
  eval_count : Int
  eval_duration : Int
  deriving DecidableEq

/-- The constructor of `OllamaResponse`: `data.load_duration || 0` is `0` when the field
is absent (and when it is `0`). -/
def OllamaResponse.new (data : RawData) : OllamaResponse where
  model := data.model
  created_at := data.created_at
  response := data.response
  done := data.done
  total_duration := data.total_duration
  load_duration := match data.load_duration with
    | some d => if d = 0 then 0 else d
    | none => 0
  prompt_eval_count := data.prompt_eval_count
  prompt_eval_duration := data.prompt_eval_duration
  eval_count := data.eval_count
  eval_duration := data.eval_duration

/-- The function `nanosecToSec`. -/
def nanosecToSec (nanosec : JSNum) : JSNum := nanosec.div JSNum.e9

/-! ## Per-sample statistics -/

/-- The record returned by `calculateStats`. -/
structure Stats where
  promptTokensPerSecond : JSNum
  responseTokensPerSecond : JSNum
  totalTokensPerSecond : JSNum
  totalTokens : JSNum
  totalDuration : JSNum
  deriving DecidableEq

/-- The function `calculateStats`. -/
def calculateStats (response : OllamaResponse) : Stats :=
  let promptTokensPerSecond :=
    (JSNum.ofInt response.prompt_eval_count).div
      ((JSNum.ofInt response.prompt_eval_duration).div JSNum.e9)
  let responseTokensPerSecond :=
    (JSNum.ofInt response.eval_count).div
      ((JSNum.ofInt response.eval_duration).div JSNum.e9)
  let totalTokensPerSecond :=
    ((JSNum.ofInt response.prompt_eval_count).add (JSNum.ofInt response.eval_count)).div
      (((JSNum.ofInt response.prompt_eval_duration).add
        (JSNum.ofInt response.eval_duration)).div JSNum.e9)
  { promptTokensPerSecond := promptTokensPerSecond
    responseTokensPerSecond := responseTokensPerSecond
    totalTokensPerSecond := totalTokensPerSecond
    totalTokens :=
      (JSNum.ofInt response.prompt_eval_count).add (JSNum.ofInt response.eval_count)
    totalDuration := (JSNum.ofInt response.total_duration).div JSNum.e9 }

/-! ## Formatting: `Number.prototype.toFixed` -/

/-- The integer `n` for which `n / 10^f - x` is as close to zero as possible, the larger
one when there are two (ECMAScript, `Number.prototype.toFixed`, for `x ≥ 0`). -/
def nearestScaled (x : ℚ) (f : Nat) : Nat :=
  let lo : Int := ⌊x * (10 : ℚ) ^ f⌋
  let n : Int :=
    if ((lo : ℚ) + 1) / (10 : ℚ) ^ f - x ≤ x - (lo : ℚ) / (10 : ℚ) ^ f then lo + 1 else lo
  n.toNat

/-- The digits and the point of `toFixed(f)` for `0 ≤ x < 10^21`: the digits of `n`,
padded on the left with zeros up to `f + 1` digits, with a point before the last `f`. -/
def toFixedDigits (x : ℚ) (f : Nat) : List Char :=
  let n := nearestScaled x f
  let m := if n = 0 then ['0'] else Nat.toDigits 10 n
  if f ≠ 0 then
    let k := m.length
    let m1 := if k ≤ f then List.replicate (f + 1 - k) '0' ++ m else m
    let k1 := if k ≤ f then f + 1 else k
    m1.take (k1 - f) ++ ['.'] ++ m1.drop (k1 - f)
  else m

/-- The digits `s` (with `k` of them) and the exponent `n` of `Number::toString` for one
length `k`: an integer `s` of `k` digits with `s * 10^(n - k)` rounding to the double `x`,
the nearest to `x` when two do, the even one on a tie; `n0` is the number of digits of the
integer part of `x`, more than `k`. -/
def shortestCandidate (x : ℚ) (n0 k : Nat) : Option (Nat × Nat) :=
  let scale : ℚ := (10 : ℚ) ^ (n0 - k)
  let lo := (⌊x / scale⌋).toNat
  let hi := lo + 1
  let okLo := decide (JSNum.roundDouble ((lo : ℚ) * scale) = JSNum.fin x)
  let okHi := decide (JSNum.roundDouble ((hi : ℚ) * scale) = JSNum.fin x)
  let pickHi :=
    okHi && (!okLo || decide ((hi : ℚ) * scale - x < x - (lo : ℚ) * scale) ||
      (decide ((hi : ℚ) * scale - x = x - (lo : ℚ) * scale) && decide (hi % 2 = 0)))
  if pickHi then (if hi = 10 ^ k then some (10 ^ (k - 1), n0 + 1) else some (hi, n0))
  else if okLo then some (lo, n0)
  else none

/-- The first length from `k` on, among the next `fuel` ones, that has digits. -/
def shortestDigits (x : ℚ) (n0 : Nat) : Nat → Nat → Option (Nat × Nat)
  | 0, _ => none
  | fuel + 1, k =>
    match shortestCandidate x n0 k with
    | some r => some r
    | none => shortestDigits x n0 fuel (k + 1)

/-- The text of a finite number `x ≥ 10^21` (`Number::toString`): scientific notation
`d.ddde+N` with the fewest digits that read back as `x`, 17 at most. -/
def numberToStringLarge (x : ℚ) : List Char :=
  let n0 := (Nat.toDigits 10 (⌊x⌋).toNat).length
  let r := match shortestDigits x n0 17 1 with
    | some r => r
    | none => ((⌊x / (10 : ℚ) ^ (n0 - 17) + 1 / 2⌋).toNat, n0)
  let ds := Nat.toDigits 10 r.1
  let mantissa := match ds with
    | [] => []
    | [d] => [d]
    | d :: rest => d :: '.' :: rest
  mantissa ++ ['e', '+'] ++ Nat.toDigits 10 (r.2 - 1)

/-- The method `toFixed(f)` of a number. -/
def JSNum.toFixed (x : JSNum) (f : Nat) : String :=
  match x with
  | .nan => "NaN"
  | .posInf => "Infinity"
  | .negInf => "-Infinity"
  | .negZero => String.mk (toFixedDigits 0 f)
  | .fin q =>
    let s := if q < 0 then ['-'] else []
    let a := if q < 0 then -q else q
    let m := if (10 : ℚ) ^ 21 ≤ a then numberToStringLarge a else toFixedDigits a f
    String.mk (s ++ m)

/-! ## The console -/

/-- One message written to the console, with the method that wrote it. -/
inductive LogLine where
  | log (text : String)
  | error (text : String)
  deriving DecidableEq

/-- The messages written so far, oldest first. -/
abbrev Console := List LogLine

/-! ## Aggregation -/

/-- The record returned by `averageStats`: five formatted numbers. -/
structure AvgStats where
  promptTokensPerSecond : String
  responseTokensPerSecond : String
  totalTokensPerSecond : String
  totalTokens : String
  totalDuration : String
  deriving DecidableEq

/-- The expression `(stats.reduce((sum, s) => sum + field(s), 0) / stats.length).toFixed(2)`
of `averageStats`. -/
def averageField (stats : List Stats) (field : Stats → JSNum) : String :=
  ((stats.foldl (fun sum s => sum.add (field s)) (JSNum.fin 0)).div
    (JSNum.fin (stats.length : ℚ))).toFixed 2

/-- The message `averageStats` logs. -/
def averageStatsMessage (avgStats : AvgStats) : String :=
  "Average Stats:\n    Prompt Tokens/s: " ++ avgStats.promptTokensPerSecond ++
  "\n    Response Tokens/s: " ++ avgStats.responseTokensPerSecond ++
  "\n    Total Tokens/s: " ++ avgStats.totalTokensPerSecond ++
  "\n    Avg Total Tokens: " ++ avgStats.totalTokens ++
  "\n    Avg Total Duration: " ++ avgStats.totalDuration ++ "s\n    "

/-- The function `averageStats`: the averaged record, and the console after its
`console.log`. -/
def averageStats (responses : List OllamaResponse) (console : Console) :
    AvgStats × Console :=
  let stats := responses.map calculateStats
  let avgStats : AvgStats :=
    { promptTokensPerSecond := averageField stats (fun s => s.promptTokensPerSecond)
      responseTokensPerSecond := averageField stats (fun s => s.responseTokensPerSecond)
      totalTokensPerSecond := averageField stats (fun s => s.totalTokensPerSecond)
      totalTokens := averageField stats (fun s => s.totalTokens)
      totalDuration := averageField stats (fun s => s.totalDuration) }
  (avgStats, console ++ [LogLine.log (averageStatsMessage avgStats)])

/-! ## The driver -/

/-- A plain object with string keys, as the list of its own properties in the order of
their insertion.  The names are ordinary property names (the accessor `__proto__` is not
represented). -/
abbrev JSObject (α : Type) := List (String × α)

/-- The assignment `obj[key] = value`: a property that exists keeps its place and gets
the value, a new one goes to the end. -/
def JSObject.set {α : Type} : JSObject α → String → α → JSObject α
  | [], key, value => [(key, value)]
  | (k, v) :: rest, key, value =>
    if k = key then (k, value) :: rest else (k, v) :: JSObject.set rest key value

/-- The read `obj[key]`: `none` when the object has no such property. -/
def JSObject.get {α : Type} : JSObject α → String → Option α
  | [], _ => none
  | (k, v) :: rest, key => if k = key then some v else JSObject.get rest key

/-- The second loop of `main` (the assembly of `results`), run on
`entries = Object.entries(benchmarks)`, the own properties of `benchmarks` in the order
the loop visits them, from the `results` and the console built so far.
A value of `results` is a record of `averageStats` or `null` (`none`). -/
def mainResults : List (String × List OllamaResponse) → JSObject (Option AvgStats) →
    Console → JSObject (Option AvgStats) × Console
  | [], results, console => (results, console)
  | (modelName, responses) :: rest, results, console =>
    if responses.length > 0 then
      let console1 := console ++ [LogLine.log ("\nResults for " ++ modelName ++ ":")]
      let r := averageStats responses console1
      mainResults rest (results.set modelName (some r.1)) r.2
    else
      let console1 := console ++ [LogLine.log ("\nNo valid responses for " ++ modelName)]
      mainResults rest (results.set modelName none) console1

/-- One model of the reply of `/api/tags`. -/
structure ModelTag where
  name : String
  deriving DecidableEq

/-- What the request to `/api/tags` gives: the parsed list `data.models`, a reply whose
status is not ok, or an exception with its message. -/
inductive TagsReply where
  | ok (models : List ModelTag)
  | httpError (status : Nat)
  | failed (message : String)

/-- The function `getBenchmarkModels`, on the reply of the server. -/
def getBenchmarkModels (skipModels : List String) (reply : TagsReply) (console : Console) :
    List String × Console :=
  match reply with
  | .ok models =>
    let modelNames := models.map (fun model => model.name)
    let filteredModelNames :=
      if skipModels.length ≠ 0 then
        modelNames.filter (fun model => !skipModels.contains model)
      else modelNames
    (filteredModelNames,
      console ++ [LogLine.log
        ("Evaluating models: " ++ ", ".intercalate filteredModelNames ++ "\n")])
  | .httpError status =>
    ([], console ++ [LogLine.error
      ("Error fetching models: HTTP error! status: " ++ toString status)])
  | .failed message =>
    ([], console ++ [LogLine.error ("Error fetching models: " ++ message)])

/-! ## The specification's words

The definitions of this section follow the specification, not the code: exact rational
metrics, the arithmetic mean, half-up rounding to two decimals and its decimal string. -/

namespace Spec

/-- A duration in nanoseconds as seconds: exact rational division by `10^9`. -/
def seconds (ns : Int) : ℚ := (ns : ℚ) / 10 ^ 9

/-- Prompt tokens per second of a sample. -/
def promptTokensPerSecond (r : OllamaResponse) : ℚ :=
  (r.prompt_eval_count : ℚ) / seconds r.prompt_eval_duration

/-- Generated tokens per second of a sample. -/
def responseTokensPerSecond (r : OllamaResponse) : ℚ :=
  (r.eval_count : ℚ) / seconds r.eval_duration

/-- All tokens over the two evaluation durations. -/
def totalTokensPerSecond (r : OllamaResponse) : ℚ :=
  ((r.prompt_eval_count + r.eval_count : Int) : ℚ) /
    seconds (r.prompt_eval_duration + r.eval_duration)

/-- The integer sum of the two token counts. -/
def totalTokens (r : OllamaResponse) : ℚ := ((r.prompt_eval_count + r.eval_count : Int) : ℚ)

/-- The total duration in seconds. -/
def totalDuration (r : OllamaResponse) : ℚ := seconds r.total_duration

/-- The arithmetic mean: the sum divided by the number of values. -/
def mean (xs : List ℚ) : ℚ := xs.sum / (xs.length : ℚ)

/-- Rounding to two decimal places, a half going up. -/
def roundHalfUp2 (q : ℚ) : ℚ := (⌊q * 100 + 1 / 2⌋ : ℚ) / 100

/-- The decimal string of `r ≥ 0` with exactly two fractional digits: the integer part,
a point, the tenths and the hundredths. -/
def decimalString2 (r : ℚ) : String :=
  String.mk (Nat.toDigits 10 (⌊r⌋).toNat ++
    ['.', Nat.digitChar ((⌊r * 10⌋).toNat % 10), Nat.digitChar ((⌊r * 100⌋).toNat % 10)])

/-- The summary field of a metric: the two-decimal string of the rounded mean. -/
def summaryField (rs : List OllamaResponse) (metric : OllamaResponse → ℚ) : String :=
  decimalString2 (roundHalfUp2 (mean (rs.map metric)))

/-- Non-negative counts, positive evaluation durations, non-negative total duration. -/
def ValidSample (r : OllamaResponse) : Prop :=
  0 ≤ r.prompt_eval_count ∧ 0 ≤ r.eval_count ∧ 0 < r.prompt_eval_duration ∧
    0 < r.eval_duration ∧ 0 ≤ r.total_duration

/-- The unit roundoff of binary64: a rounding changes a value of the normal range by at
most this relative amount. -/
def u : ℚ := 1 / 2 ^ 53

/-- The value `a` is the exact value `A ≥ 0` up to `k` roundings:
`A * (1 - u)^k ≤ a ≤ A * (1 + u)^k`. -/
def Within (k : ℕ) (a A : ℚ) : Prop := A * (1 - u) ^ k ≤ a ∧ a ≤ A * (1 + u) ^ k

/-- Non-negative counts, positive evaluation durations and a non-negative total duration,
none above `2^52` (`2^53` for the total duration), so that the fields and the sums of
`calculateStats` are exact doubles. -/
def BoundedSample (r : OllamaResponse) : Prop :=
  0 ≤ r.prompt_eval_count ∧ r.prompt_eval_count ≤ 2 ^ 52 ∧
    0 ≤ r.eval_count ∧ r.eval_count ≤ 2 ^ 52 ∧
    0 < r.prompt_eval_duration ∧ r.prompt_eval_duration ≤ 2 ^ 52 ∧
    0 < r.eval_duration ∧ r.eval_duration ≤ 2 ^ 52 ∧
    0 ≤ r.total_duration ∧ r.total_duration ≤ 2 ^ 53

/-- The range of the fields of `calculateStats` on a bounded sample: zero, or from
`2^-40` to `2^90`. -/
def InRange (x : ℚ) : Prop :=
  (x = 0 ∨ (2 : ℚ) ^ (-40 : ℤ) ≤ x) ∧ x ≤ (2 : ℚ) ^ (90 : ℤ)

/-- What a summary field is for the samples `rs` and a metric, when the mean with the
roundings of the code stays below `10^21`: the two-decimal half-up string of a number
within `length + 4` roundings of the arithmetic mean, and the string of the arithmetic
mean itself when the half-up rounding is the same over that whole range. -/
def RoundedMeanField (rs : List OllamaResponse) (metric : OllamaResponse → ℚ)
    (field : String) : Prop :=
  mean (rs.map metric) * (1 + u) ^ (rs.length + 4) < 10 ^ 21 →
    (∃ m : ℚ, Within (rs.length + 4) m (mean (rs.map metric)) ∧
      field = decimalString2 (roundHalfUp2 m)) ∧
    (roundHalfUp2 (mean (rs.map metric) * (1 - u) ^ (rs.length + 4)) =
        roundHalfUp2 (mean (rs.map metric) * (1 + u) ^ (rs.length + 4)) →
      field = summaryField rs metric)

/-- What a summary field is for `N` copies of a sample whose metric is the number `v`:
`toFixed(2)` of a number within `N + 1` roundings of the finite value of `v`. -/
def NearField (v : JSNum) (N : ℕ) (field : String) : Prop :=
  ∃ x m : ℚ, v = JSNum.fin x ∧ Within (N + 1) m x ∧ field = (JSNum.fin m).toFixed 2

end Spec

/-! ## Concrete samples -/

/-- 10 prompt tokens in 2 s, 100 generated tokens in 10 s, 12 s in all. -/
def sampleA : OllamaResponse :=
  { model := "llama2:latest", created_at := "2024-01-01T00:00:00Z", response := "blue",
    done := true, total_duration := 12000000000, load_duration := 0,
    prompt_eval_count := 10, prompt_eval_duration := 2000000000,
    eval_count := 100, eval_duration := 10000000000 }

/-- 14 prompt tokens in 2 s, 100 generated tokens in 10 s, 1.5 s in all. -/
def sampleB : OllamaResponse :=
  { model := "llama2:latest", created_at := "2024-01-01T00:00:01Z", response := "sky",
    done := true, total_duration := 1500000000, load_duration := 0,
    prompt_eval_count := 14, prompt_eval_duration := 2000000000,
    eval_count := 100, eval_duration := 10000000000 }

/-- A sample that reports `10^21` prompt tokens evaluated in one second. -/
def sampleHuge : OllamaResponse :=
  { model := "llama2:latest", created_at := "2024-01-01T00:00:02Z", response := "",
    done := true, total_duration := 2000000000, load_duration := 0,
    prompt_eval_count := 1000000000000000000000, prompt_eval_duration := 1000000000,
    eval_count := 0, eval_duration := 1000000000 }

/-- A sample with 201 prompt tokens in 200 s: the exact rate is 1.005. -/
def sample201 : OllamaResponse :=
  { sampleA with prompt_eval_count := 201, prompt_eval_duration := 200000000000,
                 total_duration := 210000000000 }

/-- The sample of the scenarios with a total duration of 45 ms. -/
def sample45ms : OllamaResponse := { sampleA with total_duration := 45000000 }

/-- The sample of the scenarios with a total duration of 5 ms. -/
def sample5ms : OllamaResponse := { sampleA with total_duration := 5000000 }

/-- The sample of the scenarios with a total duration of 65 ms. -/
def sample65ms : OllamaResponse := { sampleA with total_duration := 65000000 }

/-- One token in 25000075 ns and two tokens in 50000150 ns: the same exact rate. -/
def sampleMediant : OllamaResponse :=
  { model := "llama2:latest", created_at := "2024-01-01T00:00:03Z", response := "",
    done := true, total_duration := 75000225, load_duration := 0,
    prompt_eval_count := 1, prompt_eval_duration := 25000075,
    eval_count := 2, eval_duration := 50000150 }

/-- The record with five times the text `NaN`. -/
def nanStats : AvgStats :=
  { promptTokensPerSecond := "NaN", responseTokensPerSecond := "NaN",
    totalTokensPerSecond := "NaN", totalTokens := "NaN", totalDuration := "NaN" }


/-! ## Lemmas on the rounding -/

namespace JSNum

theorem roundHalfEven_intCast (z : ℤ) : roundHalfEven (z : ℚ) = z := by
  unfold roundHalfEven
  simp

theorem roundHalfEven_near (q : ℚ) (n : ℤ) (h : |q - n| < 1 / 2) : roundHalfEven q = n := by
  rw [abs_lt] at h
  unfold roundHalfEven
  have hf := Int.floor_le q
  have hf2 := Int.lt_floor_add_one q
  simp only
  by_cases hn : (n : ℚ) ≤ q
  · have e : ⌊q⌋ = n := by
      rw [Int.floor_eq_iff]; constructor <;> linarith
    rw [e]
    have : q - (n : ℚ) < 1 / 2 := by linarith
    rw [if_pos this]
  · have e : ⌊q⌋ = n - 1 := by
      rw [Int.floor_eq_iff]; push_cast; constructor <;> linarith
    rw [e]
    push_cast
    have h1 : ¬ (q - ((n : ℚ) - 1) < 1 / 2) := by linarith
    have h2 : (1 : ℚ) / 2 < q - ((n : ℚ) - 1) := by linarith
    rw [if_neg h1, if_pos h2]
    ring

theorem roundHalfEven_abs_sub_le (q : ℚ) : |(roundHalfEven q : ℚ) - q| ≤ 1 / 2 := by
  unfold roundHalfEven
  have hf := Int.floor_le q
  have hf2 := Int.lt_floor_add_one q
  simp only
  rw [abs_le]
  split_ifs with h1 h2 h3
  · constructor <;> linarith
  · push_cast; constructor <;> linarith
  · constructor <;> linarith
  · push_cast; constructor <;> linarith

theorem le_roundHalfEven (q : ℚ) (a : ℤ) (h : (a : ℚ) ≤ q) : a ≤ roundHalfEven q := by
  have hf : a ≤ ⌊q⌋ := Int.le_floor.mpr h
  unfold roundHalfEven
  simp only
  split_ifs <;> omega

theorem roundHalfEven_le (q : ℚ) (b : ℤ) (h : q ≤ (b : ℚ)) : roundHalfEven q ≤ b := by
  rcases h.lt_or_eq with h | h
  · have hf : ⌊q⌋ < b := Int.floor_lt.mpr h
    unfold roundHalfEven
    simp only
    split_ifs <;> omega
  · rw [h, roundHalfEven_intCast]

theorem log_two_eq (x : ℚ) (e : ℤ) (hx : 0 < x) (h1 : (2 : ℚ) ^ e ≤ x)
    (h2 : x < (2 : ℚ) ^ (e + 1)) : Int.log 2 x = e := by
  have a : e ≤ Int.log 2 x := by
    rw [← Int.zpow_le_iff_le_log (by norm_num) hx]
    exact_mod_cast h1
  have b : Int.log 2 x < e + 1 := by
    rw [← Int.lt_zpow_iff_log_lt (by norm_num) hx]
    exact_mod_cast h2
  omega

theorem zpow_log_two_le (x : ℚ) (hx : 0 < x) : (2 : ℚ) ^ Int.log 2 x ≤ x := by
  have := Int.zpow_log_le_self (b := 2) (by norm_num) hx
  exact_mod_cast this

theorem lt_zpow_log_two_succ (x : ℚ) : x < (2 : ℚ) ^ (Int.log 2 x + 1) := by
  have := Int.lt_zpow_succ_log_self (b := 2) (by norm_num) x
  exact_mod_cast this


theorem zpow_split (e : ℤ) :
    (2 : ℚ) ^ e = (2 : ℚ) ^ (52 : ℕ) * (2 : ℚ) ^ (e - 52) ∧
      (2 : ℚ) ^ (e + 1) = (2 : ℚ) ^ (53 : ℕ) * (2 : ℚ) ^ (e - 52) := by
  have h2 : (2 : ℚ) ≠ 0 := by norm_num
  constructor
  · rw [← zpow_natCast, ← zpow_add₀ h2]; congr 1; omega
  · rw [← zpow_natCast, ← zpow_add₀ h2]; congr 1; omega

theorem roundPos_of_isDouble (y : ℚ) (hy : 0 < y) (h : IsDouble y) : roundPos y = fin y := by
  obtain ⟨n, e, he, hn, hyn, hlt⟩ := h
  have h2 : (2 : ℚ) ≠ 0 := by norm_num
  have hpe : (0 : ℚ) < (2 : ℚ) ^ e := by positivity
  have hnpos : (0 : ℚ) < (n : ℚ) := by
    by_contra hcon
    have : (n : ℚ) ≤ 0 := not_lt.mp hcon
    have : y ≤ 0 := by rw [hyn]; exact mul_nonpos_of_nonpos_of_nonneg this hpe.le
    linarith
  have hn' : (n : ℚ) < (2 : ℚ) ^ (53 : ℕ) := by
    have : n < 2 ^ 53 := lt_of_le_of_lt (le_abs_self n) hn
    exact_mod_cast this
  have hlog : Int.log 2 y < e + 53 := by
    rw [← Int.lt_zpow_iff_log_lt (by norm_num) hy]
    have : ((2 : ℕ) : ℚ) ^ (e + 53) = (2 : ℚ) ^ e * (2 : ℚ) ^ (53 : ℕ) := by
      rw [← zpow_natCast (2 : ℚ) 53, ← zpow_add₀ h2]; norm_num
    rw [this, hyn, mul_comm]
    exact mul_lt_mul_of_pos_left hn' hpe
  unfold roundPos
  simp only
  generalize hE : max (Int.log 2 y) (-1022) = E
  have hEle : E ≤ e + 52 := by
    rw [← hE]; exact max_le (by omega) (by omega)
  obtain ⟨k, hk⟩ : ∃ k : ℕ, (k : ℤ) = e - (E - 52) := ⟨(e - (E - 52)).toNat, by omega⟩
  have hq : y / (2 : ℚ) ^ (E - 52) = (((n * 2 ^ k : ℤ)) : ℚ) := by
    rw [hyn, mul_div_assoc, ← zpow_sub₀ h2, ← hk, zpow_natCast]
    push_cast; ring
  rw [hq, roundHalfEven_intCast]
  have hback : (((n * 2 ^ k : ℤ)) : ℚ) * (2 : ℚ) ^ (E - 52) = y := by
    rw [← hq]; field_simp
  rw [hback]
  have : ¬ ((2 : ℚ) ^ (1024 : ℕ) ≤ y) := by
    rw [not_le]; exact lt_of_le_of_lt (le_abs_self y) hlt
  rw [if_neg this]

theorem isDouble_neg (y : ℚ) (h : IsDouble y) : IsDouble (-y) := by
  obtain ⟨n, e, he, hn, hyn, hlt⟩ := h
  exact ⟨-n, e, he, by rwa [abs_neg], by rw [hyn]; push_cast; ring, by rwa [abs_neg]⟩

theorem roundDouble_of_isDouble (y : ℚ) (h : IsDouble y) : roundDouble y = fin y := by
  unfold roundDouble
  by_cases h0 : y = 0
  · simp [h0]
  · rw [if_neg h0]
    by_cases hp : 0 < y
    · rw [if_pos hp, roundPos_of_isDouble y hp h]
    · rw [if_neg hp]
      have hneg : 0 < -y := by
        rcases lt_trichotomy y 0 with h1 | h1 | h1
        · linarith
        · exact absurd h1 h0
        · exact absurd h1 hp
      rw [roundPos_of_isDouble (-y) hneg (isDouble_neg y h)]
      simp [neg, h0]

theorem isDouble_intCast (i : ℤ) (h : |i| ≤ 2 ^ 53) : IsDouble (i : ℚ) := by
  have hlt : |(i : ℚ)| < (2 : ℚ) ^ (1024 : ℕ) := by
    have : |(i : ℚ)| ≤ (2 : ℚ) ^ (53 : ℕ) := by exact_mod_cast h
    have h2 : (2 : ℚ) ^ (53 : ℕ) < (2 : ℚ) ^ (1024 : ℕ) := by norm_num
    linarith
  by_cases hi : |i| < 2 ^ 53
  · exact ⟨i, 0, by norm_num, hi, by simp, hlt⟩
  · have hi' : |i| = 2 ^ 53 := le_antisymm h (not_lt.mp hi)
    rcases abs_eq (by norm_num : (0 : ℤ) ≤ 2 ^ 53) |>.mp hi' with h1 | h1
    · exact ⟨2 ^ 52, 1, by norm_num, by norm_num, by rw [h1]; norm_num, hlt⟩
    · exact ⟨-2 ^ 52, 1, by norm_num, by norm_num, by rw [h1]; norm_num, hlt⟩

theorem ofInt_eq (i : ℤ) (h : |i| ≤ 2 ^ 53) : ofInt i = fin (i : ℚ) :=
  roundDouble_of_isDouble _ (isDouble_intCast i h)


theorem isDouble_of_scaled (n E : ℤ) (hE : -1022 ≤ E) (h0 : 0 ≤ n) (h1 : n ≤ 2 ^ 53)
    (hlt : (n : ℚ) * (2 : ℚ) ^ (E - 52) < (2 : ℚ) ^ (1024 : ℕ)) :
    IsDouble ((n : ℚ) * (2 : ℚ) ^ (E - 52)) := by
  have hy0 : (0 : ℚ) ≤ (n : ℚ) * (2 : ℚ) ^ (E - 52) := by
    have : (0 : ℚ) ≤ (n : ℚ) := by exact_mod_cast h0
    exact mul_nonneg this (zpow_nonneg (by norm_num) _)
  have habs : |(n : ℚ) * (2 : ℚ) ^ (E - 52)| < (2 : ℚ) ^ (1024 : ℕ) := by
    rw [abs_of_nonneg hy0]; exact hlt
  by_cases hn : n < 2 ^ 53
  · exact ⟨n, E - 52, by omega, by rw [abs_of_nonneg h0]; exact hn, rfl, habs⟩
  · have hn' : n = 2 ^ 53 := le_antisymm h1 (not_lt.mp hn)
    refine ⟨2 ^ 52, E - 51, by omega, by norm_num, ?_, habs⟩
    have h2 : (2 : ℚ) ≠ 0 := by norm_num
    have : (2 : ℚ) ^ (E - 51) = (2 : ℚ) ^ (E - 52) * 2 := by
      rw [← zpow_add_one₀ h2]; congr 1; omega
    rw [hn', this]; push_cast; ring

theorem roundPos_isDouble (x : ℚ) (hx : 0 < x) (y : ℚ) (h : roundPos x = fin y) :
    IsDouble y ∧ 0 ≤ y := by
  unfold roundPos at h
  simp only at h
  generalize hE : max (Int.log 2 x) (-1022) = E at h
  have hE1 : -1022 ≤ E := by rw [← hE]; exact le_max_right _ _
  have hE2 : Int.log 2 x ≤ E := by rw [← hE]; exact le_max_left _ _
  have hP : (0 : ℚ) < (2 : ℚ) ^ (E - 52) := by positivity
  have hxlt : x < (2 : ℚ) ^ (53 : ℕ) * (2 : ℚ) ^ (E - 52) := by
    rw [← (zpow_split E).2]
    refine lt_of_lt_of_le (lt_zpow_log_two_succ x) ?_
    exact zpow_le_zpow_right₀ (by norm_num) (by omega)
  have hq1 : x / (2 : ℚ) ^ (E - 52) ≤ ((2 ^ 53 : ℤ) : ℚ) := by
    rw [div_le_iff₀ hP]; push_cast; exact hxlt.le
  have hq0 : ((0 : ℤ) : ℚ) ≤ x / (2 : ℚ) ^ (E - 52) := by
    push_cast; positivity
  have hn1 := roundHalfEven_le _ _ hq1
  have hn0 := le_roundHalfEven _ _ hq0
  split_ifs at h with hov
  rw [not_le] at hov
  have hy : y = _ := (fin.inj h).symm
  rw [hy]
  refine ⟨isDouble_of_scaled _ E hE1 hn0 hn1 hov, ?_⟩
  have : (0 : ℚ) ≤ (roundHalfEven (x / (2 : ℚ) ^ (E - 52)) : ℚ) := by exact_mod_cast hn0
  exact mul_nonneg this hP.le

/-- The rounding of a positive rational of the normal range: the relative error is at
most `2^-53`, and a power of two below or above the argument stays so. -/
theorem roundPos_bound (x : ℚ) (h1 : (2 : ℚ) ^ (-1022 : ℤ) ≤ x)
    (h2 : x < (2 : ℚ) ^ (1023 : ℤ)) :
    ∃ y, roundPos x = fin y ∧ |y - x| ≤ x / 2 ^ 53 ∧ IsDouble y ∧
      (∀ j : ℤ, (2 : ℚ) ^ j ≤ x → (2 : ℚ) ^ j ≤ y) ∧
      (∀ j : ℤ, x ≤ (2 : ℚ) ^ j → y ≤ (2 : ℚ) ^ j) := by
  have hx : 0 < x := lt_of_lt_of_le (by positivity) h1
  have he1 : -1022 ≤ Int.log 2 x := by
    rw [← Int.zpow_le_iff_le_log (by norm_num) hx]; exact_mod_cast h1
  have he2 : Int.log 2 x < 1023 := by
    rw [← Int.lt_zpow_iff_log_lt (by norm_num) hx]; exact_mod_cast h2
  generalize hE : Int.log 2 x = E at he1 he2
  have hlo : (2 : ℚ) ^ E ≤ x := by rw [← hE]; exact zpow_log_two_le x hx
  have hhi : x < (2 : ℚ) ^ (E + 1) := by rw [← hE]; exact lt_zpow_log_two_succ x
  have hP : (0 : ℚ) < (2 : ℚ) ^ (E - 52) := by positivity
  rw [(zpow_split E).1] at hlo
  rw [(zpow_split E).2] at hhi
  have hq0 : ((2 ^ 52 : ℤ) : ℚ) ≤ x / (2 : ℚ) ^ (E - 52) := by
    rw [le_div_iff₀ hP]; push_cast; exact hlo
  have hq1 : x / (2 : ℚ) ^ (E - 52) ≤ ((2 ^ 53 : ℤ) : ℚ) := by
    rw [div_le_iff₀ hP]; push_cast; exact hhi.le
  have hn0 := le_roundHalfEven _ _ hq0
  have hn1 := roundHalfEven_le _ _ hq1
  have herr := roundHalfEven_abs_sub_le (x / (2 : ℚ) ^ (E - 52))
  generalize hn : roundHalfEven (x / (2 : ℚ) ^ (E - 52)) = n at hn0 hn1 herr
  have hn0' : (2 : ℚ) ^ (52 : ℕ) ≤ (n : ℚ) := by exact_mod_cast hn0
  have hn1' : (n : ℚ) ≤ (2 : ℚ) ^ (53 : ℕ) := by exact_mod_cast hn1
  have hylo : (2 : ℚ) ^ E ≤ (n : ℚ) * (2 : ℚ) ^ (E - 52) := by
    rw [(zpow_split E).1]; exact mul_le_mul_of_nonneg_right hn0' hP.le
  have hyhi : (n : ℚ) * (2 : ℚ) ^ (E - 52) ≤ (2 : ℚ) ^ (E + 1) := by
    rw [(zpow_split E).2]; exact mul_le_mul_of_nonneg_right hn1' hP.le
  have hov : (n : ℚ) * (2 : ℚ) ^ (E - 52) < (2 : ℚ) ^ (1024 : ℕ) := by
    have : (2 : ℚ) ^ (E + 1) ≤ (2 : ℚ) ^ (1023 : ℤ) :=
      zpow_le_zpow_right₀ (by norm_num) (by omega)
    have h3 : (2 : ℚ) ^ (1023 : ℤ) < (2 : ℚ) ^ (1024 : ℕ) := by
      rw [← zpow_natCast]; exact zpow_lt_zpow_right₀ (by norm_num) (by norm_num)
    linarith
  refine ⟨(n : ℚ) * (2 : ℚ) ^ (E - 52), ?_, ?_, ?_, ?_, ?_⟩
  · unfold roundPos
    simp only
    rw [hE, max_eq_left he1, hn, if_neg (not_le.mpr hov)]
  · have e1 : (n : ℚ) * (2 : ℚ) ^ (E - 52) - x =
        ((n : ℚ) - x / (2 : ℚ) ^ (E - 52)) * (2 : ℚ) ^ (E - 52) := by
      field_simp
    rw [e1, abs_mul, abs_of_pos hP]
    have : |(n : ℚ) - x / (2 : ℚ) ^ (E - 52)| * (2 : ℚ) ^ (E - 52) ≤
        1 / 2 * (2 : ℚ) ^ (E - 52) := mul_le_mul_of_nonneg_right herr hP.le
    refine le_trans this ?_
    rw [le_div_iff₀ (by positivity)]
    have : (2 : ℚ) ^ (52 : ℕ) * (2 : ℚ) ^ (E - 52) ≤ x := hlo
    have e53 : (2 : ℚ) ^ (53 : ℕ) = 2 * (2 : ℚ) ^ (52 : ℕ) := by norm_num
    rw [e53]
    linarith
  · exact isDouble_of_scaled n E he1 (by omega) hn1 hov
  · intro j hj
    have : j ≤ E := by
      rw [← hE, ← Int.zpow_le_iff_le_log (by norm_num) hx]; exact_mod_cast hj
    exact le_trans (zpow_le_zpow_right₀ (by norm_num) this) hylo
  · intro j hj
    have hEj : E ≤ j := by
      have : (2 : ℚ) ^ E ≤ (2 : ℚ) ^ j := by
        rw [(zpow_split E).1]; exact le_trans hlo hj
      exact (zpow_le_zpow_iff_right₀ (by norm_num)).mp this
    rcases hEj.lt_or_eq with hlt | heq
    · exact le_trans hyhi (zpow_le_zpow_right₀ (by norm_num) (by omega))
    · subst heq
      have hxe : x = (2 : ℚ) ^ (52 : ℕ) * (2 : ℚ) ^ (E - 52) := by
        rw [(zpow_split E).1] at hj
        exact le_antisymm hj hlo
      have hq : x / (2 : ℚ) ^ (E - 52) = ((2 ^ 52 : ℤ) : ℚ) := by
        rw [hxe]; field_simp
      rw [hq, roundHalfEven_intCast] at hn
      rw [← hn, (zpow_split E).1]
      push_cast
      exact le_refl _


theorem roundHalfEven_tie (q : ℚ) (n : ℤ) (h : |q - n| = 1 / 2) (hn : n % 2 = 0) :
    roundHalfEven q = n := by
  unfold roundHalfEven
  simp only
  rcases abs_eq (by norm_num : (0 : ℚ) ≤ 1 / 2) |>.mp h with h1 | h1
  · have e : ⌊q⌋ = n := by
      rw [Int.floor_eq_iff]; constructor <;> linarith
    rw [e]
    have a1 : ¬ (q - (n : ℚ) < 1 / 2) := by linarith
    have a2 : ¬ ((1 : ℚ) / 2 < q - (n : ℚ)) := by linarith
    rw [if_neg a1, if_neg a2, if_pos hn]
  · have e : ⌊q⌋ = n - 1 := by
      rw [Int.floor_eq_iff]; push_cast; constructor <;> linarith
    rw [e]
    push_cast
    have a1 : ¬ (q - ((n : ℚ) - 1) < 1 / 2) := by linarith
    have a2 : ¬ ((1 : ℚ) / 2 < q - ((n : ℚ) - 1)) := by linarith
    have a3 : ¬ ((n - 1) % 2 = 0) := by omega
    rw [if_neg a1, if_neg a2, if_neg a3]
    ring

/-- The rounding of a positive rational of the normal range, from its binary exponent `e`
and the mantissa `n` nearest to it (the even one on a tie). -/
theorem roundDouble_eval (x y : ℚ) (e n : ℤ) (he1 : -1022 ≤ e) (he2 : e ≤ 1022)
    (hlo : (2 : ℚ) ^ e ≤ x) (hhi : x < (2 : ℚ) ^ (e + 1))
    (hn : |x / (2 : ℚ) ^ (e - 52) - n| < 1 / 2 ∨
      (|x / (2 : ℚ) ^ (e - 52) - n| = 1 / 2 ∧ n % 2 = 0))
    (hy : y = (n : ℚ) * (2 : ℚ) ^ (e - 52)) : roundDouble x = fin y := by
  have hx : 0 < x := lt_of_lt_of_le (by positivity) hlo
  have hlog := log_two_eq x e hx hlo hhi
  have hr : roundHalfEven (x / (2 : ℚ) ^ (e - 52)) = n := by
    rcases hn with h | ⟨h, h'⟩
    · exact roundHalfEven_near _ _ h
    · exact roundHalfEven_tie _ _ h h'
  have hP : (0 : ℚ) < (2 : ℚ) ^ (e - 52) := by positivity
  have hq1 : x / (2 : ℚ) ^ (e - 52) ≤ ((2 ^ 53 : ℤ) : ℚ) := by
    rw [div_le_iff₀ hP]
    have := (zpow_split e).2
    have h53 : (((2 ^ 53 : ℤ)) : ℚ) = (2 : ℚ) ^ (53 : ℕ) := by norm_num
    rw [h53, ← this]; exact hhi.le
  have hn1 : n ≤ 2 ^ 53 := by rw [← hr]; exact roundHalfEven_le _ _ hq1
  have hn1' : (n : ℚ) ≤ (2 : ℚ) ^ (53 : ℕ) := by exact_mod_cast hn1
  have hov : ¬ ((2 : ℚ) ^ (1024 : ℕ) ≤ (n : ℚ) * (2 : ℚ) ^ (e - 52)) := by
    rw [not_le]
    have h1 : (n : ℚ) * (2 : ℚ) ^ (e - 52) ≤ (2 : ℚ) ^ (e + 1) := by
      rw [(zpow_split e).2]; exact mul_le_mul_of_nonneg_right hn1' hP.le
    have h2 : (2 : ℚ) ^ (e + 1) ≤ (2 : ℚ) ^ (1023 : ℤ) :=
      zpow_le_zpow_right₀ (by norm_num) (by omega)
    have h3 : (2 : ℚ) ^ (1023 : ℤ) < (2 : ℚ) ^ (1024 : ℕ) := by
      rw [← zpow_natCast]; exact zpow_lt_zpow_right₀ (by norm_num) (by norm_num)
    linarith
  unfold roundDouble
  rw [if_neg hx.ne', if_pos hx]
  unfold roundPos
  simp only
  rw [hlog, max_eq_left he1, hr, if_neg hov, hy]

theorem div_fin_fin (a b : ℚ) (ha : a ≠ 0) (hb : b ≠ 0) :
    (fin a).div (fin b) = roundDouble (a / b) := by
  simp [div, ha, hb]

theorem add_fin_fin (a b : ℚ) : (fin a).add (fin b) = roundDouble (a + b) := rfl

end JSNum
/-! ## Lemmas on the digits and on `toFixed` -/

theorem toDigitsCore_append (fuel n : Nat) (ds : List Char) :
    Nat.toDigitsCore 10 fuel n ds = Nat.toDigitsCore 10 fuel n [] ++ ds := by
  induction fuel generalizing n ds with
  | zero => simp [Nat.toDigitsCore]
  | succ fuel ih =>
    simp only [Nat.toDigitsCore]
    split
    · simp
    · rw [ih (n / 10) (_ :: ds), ih (n / 10) [_]]
      simp

theorem toDigitsCore_fuel (fuel n : Nat) (h : n < fuel) :
    Nat.toDigitsCore 10 fuel n [] = Nat.toDigits 10 n := by
  induction fuel using Nat.strong_induction_on generalizing n with
  | _ fuel ih =>
    cases fuel with
    | zero => omega
    | succ fuel =>
      unfold Nat.toDigits
      simp only [Nat.toDigitsCore]
      split
      · rfl
      · rename_i hn
        have h1 : n / 10 < fuel := by omega
        have h2 : n / 10 < n := by omega
        rw [toDigitsCore_append fuel, toDigitsCore_append n]
        rw [ih fuel (by omega) _ h1, ih n (by omega) _ h2]

theorem toDigits_lt_ten (n : Nat) (h : n < 10) : Nat.toDigits 10 n = [Nat.digitChar n] := by
  unfold Nat.toDigits
  simp only [Nat.toDigitsCore]
  have : n / 10 = 0 := by omega
  simp [this, Nat.mod_eq_of_lt h]

theorem toDigits_ge_ten (n : Nat) (h : 10 ≤ n) :
    Nat.toDigits 10 n = Nat.toDigits 10 (n / 10) ++ [Nat.digitChar (n % 10)] := by
  unfold Nat.toDigits
  simp only [Nat.toDigitsCore]
  have : n / 10 ≠ 0 := by omega
  simp only [this, if_false]
  rw [toDigitsCore_append, toDigitsCore_fuel n (n / 10) (by omega)]
  rfl

theorem nearestScaled_eq (x : ℚ) (f : Nat) :
    nearestScaled x f = (⌊x * (10 : ℚ) ^ f + 1 / 2⌋).toNat := by
  unfold nearestScaled
  have hp : (0 : ℚ) < (10 : ℚ) ^ f := by positivity
  have h1 := Int.floor_le (x * (10 : ℚ) ^ f)
  have h2 := Int.lt_floor_add_one (x * (10 : ℚ) ^ f)
  simp only
  congr 1
  symm
  split
  · rename_i h
    rw [div_sub' _ _ _ hp.ne', sub_div' _ _ _ hp.ne', div_le_div_iff_of_pos_right hp] at h
    rw [Int.floor_eq_iff]
    push_cast
    constructor <;> nlinarith
  · rename_i h
    rw [div_sub' _ _ _ hp.ne', sub_div' _ _ _ hp.ne', div_le_div_iff_of_pos_right hp, not_le] at h
    rw [Int.floor_eq_iff]
    constructor <;> nlinarith

theorem toDigits_length_two (n : Nat) (h1 : 10 ≤ n) (h2 : n < 100) :
    Nat.toDigits 10 n = [Nat.digitChar (n / 10), Nat.digitChar (n % 10)] := by
  rw [toDigits_ge_ten n h1, toDigits_lt_ten (n / 10) (by omega)]
  rfl

theorem toDigits_ne_nil (n : Nat) : Nat.toDigits 10 n ≠ [] := by
  by_cases h : n < 10
  · rw [toDigits_lt_ten n h]; simp
  · rw [toDigits_ge_ten n (by omega)]; simp

theorem toDigits_hundred (n : Nat) (h : 100 ≤ n) :
    Nat.toDigits 10 n =
      Nat.toDigits 10 (n / 100) ++ [Nat.digitChar (n / 10 % 10), Nat.digitChar (n % 10)] := by
  rw [toDigits_ge_ten n (by omega), toDigits_ge_ten (n / 10) (by omega)]
  have : n / 10 / 10 = n / 100 := by omega
  rw [this]
  simp

theorem toFixedDigits_two (x : ℚ) :
    toFixedDigits x 2 =
      Nat.toDigits 10 (nearestScaled x 2 / 100) ++
        ['.', Nat.digitChar (nearestScaled x 2 / 10 % 10),
          Nat.digitChar (nearestScaled x 2 % 10)] := by
  unfold toFixedDigits
  generalize nearestScaled x 2 = n
  by_cases h0 : n = 0
  · subst h0; simp; decide
  by_cases h1 : n < 10
  · have e1 : n / 100 = 0 := by omega
    have e2 : n / 10 % 10 = 0 := by omega
    have e3 : n % 10 = n := by omega
    simp only [h0, if_false, toDigits_lt_ten n h1, e1, e2, e3]
    simp [List.replicate, Nat.toDigits, Nat.toDigitsCore, Nat.digitChar]
  by_cases h2 : n < 100
  · have e1 : n / 100 = 0 := by omega
    have e2 : n / 10 % 10 = n / 10 := by omega
    simp only [h0, if_false, toDigits_length_two n (by omega) h2, e1, e2]
    simp [List.replicate, Nat.toDigits, Nat.toDigitsCore, Nat.digitChar]
  · have hl : 1 ≤ (Nat.toDigits 10 (n / 100)).length := by
      have := toDigits_ne_nil (n / 100)
      cases h : Nat.toDigits 10 (n / 100) with
      | nil => exact absurd h this
      | cons a l => simp
    simp only [h0, if_false, toDigits_hundred n (by omega)]
    have hk : ¬ ((Nat.toDigits 10 (n / 100) ++
        [Nat.digitChar (n / 10 % 10), Nat.digitChar (n % 10)]).length ≤ 2) := by
      rw [List.length_append, List.length_cons, List.length_cons, List.length_nil]; omega
    simp only [hk, if_false, ne_eq, OfNat.ofNat_ne_zero, not_false_eq_true, if_true]
    simp

theorem floor_natCast_div (n d : Nat) : (⌊((n : ℤ) : ℚ) / (d : ℚ)⌋).toNat = n / d := by
  have := Rat.floor_intCast_div_natCast (n : ℤ) d
  rw [this]
  norm_cast

theorem toFixed_two_eq_spec (q : ℚ) (h0 : 0 ≤ q) (h1 : q < (10 : ℚ) ^ 21) :
    (JSNum.fin q).toFixed 2 = Spec.decimalString2 (Spec.roundHalfUp2 q) := by
  have hN : 0 ≤ ⌊q * 100 + 1 / 2⌋ := Int.floor_nonneg.mpr (by positivity)
  obtain ⟨n, hn⟩ := Int.eq_ofNat_of_zero_le hN
  have hns : nearestScaled q 2 = n := by
    rw [nearestScaled_eq]
    norm_num
    rw [hn]; rfl
  unfold JSNum.toFixed Spec.decimalString2 Spec.roundHalfUp2
  simp only [not_lt.mpr h0, if_false, not_le.mpr h1, List.nil_append]
  rw [toFixedDigits_two, hns, hn]
  have e1 : (⌊((n : ℤ) : ℚ) / 100⌋).toNat = n / 100 := by
    have := floor_natCast_div n 100
    simpa using this
  have e2 : (⌊((n : ℤ) : ℚ) / 100 * 10⌋).toNat = n / 10 := by
    have := floor_natCast_div n 10
    have h : ((n : ℤ) : ℚ) / 100 * 10 = ((n : ℤ) : ℚ) / ((10 : ℕ) : ℚ) := by
      push_cast; ring
    rw [h, this]
  have e3 : (⌊((n : ℤ) : ℚ) / 100 * 100⌋).toNat = n := by
    have h : ((n : ℤ) : ℚ) / 100 * 100 = ((n : ℤ) : ℚ) := by ring
    rw [h]; simp
  rw [e1, e2, e3]



/-! ## Lemmas on the rounding error -/

namespace Spec

theorem u_pos : (0 : ℚ) < u := by unfold u; positivity

theorem u_lt_one : u < 1 := by unfold u; norm_num

theorem one_sub_u_pos : (0 : ℚ) < 1 - u := by have := u_lt_one; linarith

theorem one_sub_u_le_one : 1 - u ≤ 1 := by have := u_pos; linarith

theorem one_le_one_add_u : (1 : ℚ) ≤ 1 + u := by have := u_pos; linarith

theorem Within.mono {k k' : ℕ} {a A : ℚ} (h : Within k a A) (hA : 0 ≤ A) (hk : k ≤ k') :
    Within k' a A := by
  constructor
  · refine le_trans ?_ h.1
    exact mul_le_mul_of_nonneg_left
      (pow_le_pow_of_le_one one_sub_u_pos.le one_sub_u_le_one hk) hA
  · refine le_trans h.2 ?_
    exact mul_le_mul_of_nonneg_left (pow_le_pow_right₀ one_le_one_add_u hk) hA

theorem Within.nonneg {k : ℕ} {a A : ℚ} (h : Within k a A) (hA : 0 ≤ A) : 0 ≤ a :=
  le_trans (mul_nonneg hA (pow_nonneg one_sub_u_pos.le k)) h.1

theorem Within.zero (k : ℕ) : Within k 0 0 := by
  constructor <;> simp

theorem Within.eq_zero {k : ℕ} {A : ℚ} (h : Within k 0 A) (hA : 0 ≤ A) : A = 0 := by
  have h1 : A * (1 - u) ^ k ≤ 0 := h.1
  have hp : (0 : ℚ) < (1 - u) ^ k := pow_pos one_sub_u_pos k
  nlinarith

theorem Within.refl (a : ℚ) : Within 0 a a := by
  constructor <;> simp

theorem Within.add {k : ℕ} {a A b B : ℚ} (ha : Within k a A) (hb : Within k b B) :
    Within k (a + b) (A + B) := by
  constructor
  · have := ha.1; have := hb.1; linarith
  · have := ha.2; have := hb.2; linarith

theorem Within.round {k : ℕ} {x X y : ℚ} (h : Within k x X) (hy : |y - x| ≤ x / 2 ^ 53) :
    Within (k + 1) y X := by
  rw [abs_le] at hy
  have hu : x / 2 ^ 53 = x * u := by unfold u; ring
  rw [hu] at hy
  constructor
  · have h1 : X * (1 - u) ^ k * (1 - u) ≤ x * (1 - u) :=
      mul_le_mul_of_nonneg_right h.1 one_sub_u_pos.le
    rw [pow_succ, ← mul_assoc]
    linarith
  · have h1 : x * (1 + u) ≤ X * (1 + u) ^ k * (1 + u) :=
      mul_le_mul_of_nonneg_right h.2 (by have := u_pos; linarith)
    rw [pow_succ, ← mul_assoc]
    linarith

theorem Within.div_right {k : ℕ} {s S : ℚ} (h : Within k s S) (n : ℚ) (hn : 0 < n) :
    Within k (s / n) (S / n) := by
  constructor
  · rw [div_mul_eq_mul_div]; exact div_le_div_of_nonneg_right h.1 hn.le
  · rw [div_mul_eq_mul_div]; exact div_le_div_of_nonneg_right h.2 hn.le

/-- An exact numerator over a denominator known up to one rounding. -/
theorem Within.const_div {d D : ℚ} (h : Within 1 d D) (hD : 0 < D) (c : ℚ) (hc : 0 ≤ c) :
    Within 2 (c / d) (c / D) := by
  have hu := u_pos
  have hu1 := u_lt_one
  have h1 : D * (1 - u) ≤ d := by simpa using h.1
  have h2 : d ≤ D * (1 + u) := by simpa using h.2
  have hd : 0 < d := lt_of_lt_of_le (mul_pos hD one_sub_u_pos) h1
  have hcD : 0 ≤ c / D := div_nonneg hc hD.le
  constructor
  · rw [le_div_iff₀ hd]
    have e : c / D * (1 - u) ^ 2 * d ≤ c / D * (1 - u) ^ 2 * (D * (1 + u)) :=
      mul_le_mul_of_nonneg_left h2 (mul_nonneg hcD (sq_nonneg _))
    have e2 : c / D * (1 - u) ^ 2 * (D * (1 + u)) = c * ((1 - u) ^ 2 * (1 + u)) := by
      field_simp; ring
    have e3 : (1 - u) ^ 2 * (1 + u) ≤ 1 := by nlinarith [mul_pos hu hu]
    have e4 : c * ((1 - u) ^ 2 * (1 + u)) ≤ c * 1 := mul_le_mul_of_nonneg_left e3 hc
    linarith
  · rw [div_le_iff₀ hd]
    have e : c / D * (1 + u) ^ 2 * (D * (1 - u)) ≤ c / D * (1 + u) ^ 2 * d :=
      mul_le_mul_of_nonneg_left h1 (mul_nonneg hcD (sq_nonneg _))
    have e2 : c / D * (1 + u) ^ 2 * (D * (1 - u)) = c * ((1 + u) ^ 2 * (1 - u)) := by
      field_simp; ring
    have e3 : 1 ≤ (1 + u) ^ 2 * (1 - u) := by
      have : (1 + u) ^ 2 * (1 - u) = 1 + u * (1 - u - u ^ 2) := by ring
      rw [this]
      have : 0 ≤ u * (1 - u - u ^ 2) := by
        apply mul_nonneg hu.le
        unfold u; norm_num
      linarith
    have e4 : c * 1 ≤ c * ((1 + u) ^ 2 * (1 - u)) := mul_le_mul_of_nonneg_left e3 hc
    linarith

end Spec

namespace JSNum

theorem roundDouble_bound (x : ℚ) (h1 : (2 : ℚ) ^ (-1022 : ℤ) ≤ x)
    (h2 : x < (2 : ℚ) ^ (1023 : ℤ)) :
    ∃ y, roundDouble x = fin y ∧ |y - x| ≤ x / 2 ^ 53 ∧ IsDouble y ∧
      (∀ j : ℤ, (2 : ℚ) ^ j ≤ x → (2 : ℚ) ^ j ≤ y) ∧
      (∀ j : ℤ, x ≤ (2 : ℚ) ^ j → y ≤ (2 : ℚ) ^ j) := by
  have hx : 0 < x := lt_of_lt_of_le (by positivity) h1
  unfold roundDouble
  rw [if_neg hx.ne', if_pos hx]
  exact roundPos_bound x h1 h2

theorem isDouble_zero : IsDouble 0 :=
  ⟨0, 0, by norm_num, by norm_num, by norm_num, by norm_num⟩

/-- The seconds of a positive duration of at most `2^53` nanoseconds. -/
theorem seconds_bound (d : ℤ) (h0 : 0 < d) (h1 : d ≤ 2 ^ 53) :
    ∃ s, (ofInt d).div e9 = fin s ∧ Spec.Within 1 s ((d : ℚ) / 10 ^ 9) ∧
      (2 : ℚ) ^ (-30 : ℤ) ≤ s ∧ s ≤ (2 : ℚ) ^ (24 : ℤ) ∧ IsDouble s := by
  have hd : (1 : ℚ) ≤ (d : ℚ) := by exact_mod_cast h0
  have hd1 : (d : ℚ) ≤ 2 ^ 53 := by exact_mod_cast h1
  have hof : ofInt d = fin (d : ℚ) := ofInt_eq d (by rw [abs_of_pos h0]; exact h1)
  have hlo : (2 : ℚ) ^ (-30 : ℤ) ≤ (d : ℚ) / 1000000000 := by
    rw [le_div_iff₀ (by norm_num)]
    have : (2 : ℚ) ^ (-30 : ℤ) * 1000000000 ≤ 1 := by norm_num
    linarith
  have hhi : (d : ℚ) / 1000000000 ≤ (2 : ℚ) ^ (24 : ℤ) := by
    rw [div_le_iff₀ (by norm_num)]
    have : (2 : ℚ) ^ (53 : ℕ) ≤ (2 : ℚ) ^ (24 : ℤ) * 1000000000 := by norm_num
    linarith
  obtain ⟨s, hs, herr, hdbl, hmlo, hmhi⟩ := roundDouble_bound ((d : ℚ) / 1000000000)
    (le_trans (by norm_num) hlo) (lt_of_le_of_lt hhi (by norm_num))
  refine ⟨s, ?_, ?_, hmlo _ hlo, hmhi _ hhi, hdbl⟩
  · rw [hof, e9, div_fin_fin _ _ (by positivity) (by norm_num), hs]
  · have : (d : ℚ) / 10 ^ 9 = (d : ℚ) / 1000000000 := by norm_num
    rw [this]
    have hw : Spec.Within 0 ((d : ℚ) / 1000000000) ((d : ℚ) / 1000000000) := Spec.Within.refl _
    exact hw.round herr

/-- A count of at most `2^53` tokens over the seconds of a duration. -/
theorem rate_bound (c : ℤ) (hc0 : 0 ≤ c) (hc1 : c ≤ 2 ^ 53) (s D : ℚ)
    (hs : Spec.Within 1 s D) (hD : 0 < D) (hslo : (2 : ℚ) ^ (-30 : ℤ) ≤ s)
    (hshi : s ≤ (2 : ℚ) ^ (24 : ℤ)) :
    ∃ p, (fin (c : ℚ)).div (fin s) = fin p ∧ Spec.Within 3 p ((c : ℚ) / D) ∧
      (p = 0 ∨ (2 : ℚ) ^ (-40 : ℤ) ≤ p) ∧ p ≤ (2 : ℚ) ^ (90 : ℤ) ∧ IsDouble p := by
  have hspos : 0 < s := lt_of_lt_of_le (by positivity) hslo
  rcases hc0.lt_or_eq with hc | hc
  · have hcq : (1 : ℚ) ≤ (c : ℚ) := by exact_mod_cast hc
    have hcq1 : (c : ℚ) ≤ 2 ^ 53 := by exact_mod_cast hc1
    have hlo : (2 : ℚ) ^ (-24 : ℤ) ≤ (c : ℚ) / s := by
      rw [le_div_iff₀ hspos]
      have h24 : (2 : ℚ) ^ (-24 : ℤ) * (2 : ℚ) ^ (24 : ℤ) = 1 := by norm_num
      have : (2 : ℚ) ^ (-24 : ℤ) * s ≤ (2 : ℚ) ^ (-24 : ℤ) * (2 : ℚ) ^ (24 : ℤ) :=
        mul_le_mul_of_nonneg_left hshi (by positivity)
      linarith
    have hhi : (c : ℚ) / s ≤ (2 : ℚ) ^ (83 : ℤ) := by
      rw [div_le_iff₀ hspos]
      have h83 : (2 : ℚ) ^ (83 : ℤ) * (2 : ℚ) ^ (-30 : ℤ) = 2 ^ 53 := by norm_num
      have : (2 : ℚ) ^ (83 : ℤ) * (2 : ℚ) ^ (-30 : ℤ) ≤ (2 : ℚ) ^ (83 : ℤ) * s :=
        mul_le_mul_of_nonneg_left hslo (by positivity)
      linarith
    obtain ⟨p, hp, herr, hdbl, hmlo, hmhi⟩ := roundDouble_bound ((c : ℚ) / s)
      (le_trans (by norm_num) hlo) (lt_of_le_of_lt hhi (by norm_num))
    refine ⟨p, ?_, ?_, Or.inr (le_trans (by norm_num) (hmlo _ hlo)),
      le_trans (hmhi _ hhi) (by norm_num), hdbl⟩
    · rw [div_fin_fin _ _ (by positivity) hspos.ne', hp]
    · exact (Spec.Within.const_div hs hD (c : ℚ) (by positivity)).round herr
  · subst hc
    refine ⟨0, ?_, ?_, Or.inl rfl, by positivity, isDouble_zero⟩
    · simp [div, hspos.ne', zeroOf, not_lt.mpr hspos.le]
    · simpa using Spec.Within.zero 3

end JSNum

/-! ## Lemmas on `calculateStats` -/

theorem totalDuration_bound (d : ℤ) (h0 : 0 ≤ d) (h1 : d ≤ 2 ^ 53) :
    ∃ s, (JSNum.ofInt d).div JSNum.e9 = JSNum.fin s ∧ Spec.Within 1 s ((d : ℚ) / 10 ^ 9) ∧
      Spec.InRange s := by
  rcases h0.lt_or_eq with h | h
  · obtain ⟨s, hs, hw, hlo, hhi, _⟩ := JSNum.seconds_bound d h h1
    exact ⟨s, hs, hw, Or.inr (le_trans (by norm_num) hlo), le_trans hhi (by norm_num)⟩
  · subst h
    refine ⟨0, ?_, ?_, Or.inl rfl, by positivity⟩
    · rw [JSNum.ofInt_eq 0 (by norm_num)]
      simp [JSNum.e9, JSNum.div, JSNum.zeroOf]
    · simpa using Spec.Within.zero 1

/-- The fields of `calculateStats` on a bounded sample: finite doubles, the rates within
three roundings of the exact quotients, the duration within one, the token total exact. -/
theorem calculateStats_within (r : OllamaResponse) (h : Spec.BoundedSample r) :
    ∃ p q t d : ℚ,
      calculateStats r =
        { promptTokensPerSecond := .fin p, responseTokensPerSecond := .fin q,
          totalTokensPerSecond := .fin t,
          totalTokens := .fin ((r.prompt_eval_count + r.eval_count : ℤ) : ℚ),
          totalDuration := .fin d } ∧
      Spec.Within 3 p ((r.prompt_eval_count : ℚ) / ((r.prompt_eval_duration : ℚ) / 10 ^ 9)) ∧
      Spec.Within 3 q ((r.eval_count : ℚ) / ((r.eval_duration : ℚ) / 10 ^ 9)) ∧
      Spec.Within 3 t (((r.prompt_eval_count + r.eval_count : ℤ) : ℚ) /
        (((r.prompt_eval_duration + r.eval_duration : ℤ) : ℚ) / 10 ^ 9)) ∧
      Spec.Within 1 d ((r.total_duration : ℚ) / 10 ^ 9) ∧
      Spec.InRange p ∧ Spec.InRange q ∧ Spec.InRange t ∧
      Spec.InRange ((r.prompt_eval_count + r.eval_count : ℤ) : ℚ) ∧ Spec.InRange d := by
  obtain ⟨c1, c2, c3, c4, d1, d2, d3, d4, t1, t2⟩ := h
  have hpc := JSNum.ofInt_eq r.prompt_eval_count (by rw [abs_of_nonneg c1]; omega)
  have hec := JSNum.ofInt_eq r.eval_count (by rw [abs_of_nonneg c3]; omega)
  have hpd := JSNum.ofInt_eq r.prompt_eval_duration (by rw [abs_of_pos d1]; omega)
  have hed := JSNum.ofInt_eq r.eval_duration (by rw [abs_of_pos d3]; omega)
  have hsumc : (JSNum.fin (r.prompt_eval_count : ℚ)).add (JSNum.fin (r.eval_count : ℚ)) =
      JSNum.fin ((r.prompt_eval_count + r.eval_count : ℤ) : ℚ) := by
    rw [JSNum.add_fin_fin, ← Int.cast_add]
    exact JSNum.roundDouble_of_isDouble _
      (JSNum.isDouble_intCast _ (by rw [abs_of_nonneg (by omega)]; omega))
  have hsumd : (JSNum.fin (r.prompt_eval_duration : ℚ)).add
      (JSNum.fin (r.eval_duration : ℚ)) =
      JSNum.ofInt (r.prompt_eval_duration + r.eval_duration) := by
    rw [JSNum.add_fin_fin, ← Int.cast_add]
    rfl
  obtain ⟨s1, hs1, hw1, hl1, hu1, -⟩ := JSNum.seconds_bound r.prompt_eval_duration d1 (by omega)
  obtain ⟨s2, hs2, hw2, hl2, hu2, -⟩ := JSNum.seconds_bound r.eval_duration d3 (by omega)
  obtain ⟨s3, hs3, hw3, hl3, hu3, -⟩ :=
    JSNum.seconds_bound (r.prompt_eval_duration + r.eval_duration) (by omega) (by omega)
  have D1 : (0 : ℚ) < (r.prompt_eval_duration : ℚ) / 10 ^ 9 := by
    have : (0 : ℚ) < (r.prompt_eval_duration : ℚ) := by exact_mod_cast d1
    positivity
  have D2 : (0 : ℚ) < (r.eval_duration : ℚ) / 10 ^ 9 := by
    have : (0 : ℚ) < (r.eval_duration : ℚ) := by exact_mod_cast d3
    positivity
  have D3 : (0 : ℚ) < ((r.prompt_eval_duration + r.eval_duration : ℤ) : ℚ) / 10 ^ 9 := by
    have : (0 : ℚ) < ((r.prompt_eval_duration + r.eval_duration : ℤ) : ℚ) := by
      exact_mod_cast (by omega : 0 < r.prompt_eval_duration + r.eval_duration)
    positivity
  obtain ⟨p, hp, hwp, hrp1, hrp2, -⟩ :=
    JSNum.rate_bound r.prompt_eval_count c1 (by omega) s1 _ hw1 D1 hl1 hu1
  obtain ⟨q, hq, hwq, hrq1, hrq2, -⟩ :=
    JSNum.rate_bound r.eval_count c3 (by omega) s2 _ hw2 D2 hl2 hu2
  obtain ⟨t, ht, hwt, hrt1, hrt2, -⟩ :=
    JSNum.rate_bound (r.prompt_eval_count + r.eval_count) (by omega) (by omega) s3 _ hw3 D3
      hl3 hu3
  obtain ⟨d, hd, hwd, hrd⟩ := totalDuration_bound r.total_duration t1 t2
  refine ⟨p, q, t, d, ?_, hwp, hwq, hwt, hwd, ⟨hrp1, hrp2⟩, ⟨hrq1, hrq2⟩, ⟨hrt1, hrt2⟩, ?_, hrd⟩
  · unfold calculateStats
    simp only
    rw [hs1, hs2, hd]
    rw [hpc, hec, hpd, hed, hsumc, hsumd, hs3, hp, hq, ht]
  · have hn0 : (0 : ℤ) ≤ r.prompt_eval_count + r.eval_count := by omega
    constructor
    · rcases hn0.lt_or_eq with hlt | heq
      · right
        have : (1 : ℚ) ≤ ((r.prompt_eval_count + r.eval_count : ℤ) : ℚ) := by
          exact_mod_cast hlt
        exact le_trans (by norm_num) this
      · left
        rw [← heq]; simp
    · have : ((r.prompt_eval_count + r.eval_count : ℤ) : ℚ) ≤ 2 ^ 53 := by
        exact_mod_cast (by omega : r.prompt_eval_count + r.eval_count ≤ 2 ^ 53)
      exact le_trans this (by norm_num)

/-! ## Lemmas on the sums of `averageStats` -/

/-- One addition of the sum: the accumulator `a` after `j` values, the next value `x`. -/
theorem add_within (k j : ℕ) (a A x X : ℚ) (ha : Spec.Within k a A) (hx : Spec.Within k x X)
    (hA : 0 ≤ A) (hX : 0 ≤ X) (hj : j ≤ 2 ^ 32)
    (ha0 : a = 0 ∨ (2 : ℚ) ^ (-40 : ℤ) ≤ a) (ha1 : a ≤ 2 * (j : ℚ) * (2 : ℚ) ^ (90 : ℤ))
    (hxr : Spec.InRange x) :
    ∃ s, (JSNum.fin a).add (JSNum.fin x) = JSNum.fin s ∧ Spec.Within (k + 1) s (A + X) ∧
      (s = 0 ∨ (2 : ℚ) ^ (-40 : ℤ) ≤ s) ∧ s ≤ 2 * ((j + 1 : ℕ) : ℚ) * (2 : ℚ) ^ (90 : ℤ) := by
  have hL : (0 : ℚ) < (2 : ℚ) ^ (-40 : ℤ) := by positivity
  have hM : (0 : ℚ) < (2 : ℚ) ^ (90 : ℤ) := by positivity
  have hjq : (j : ℚ) ≤ 2 ^ 32 := by exact_mod_cast hj
  have ha' : 0 ≤ a := by rcases ha0 with h | h <;> [exact h.ge; exact le_trans hL.le h]
  have hx' : 0 ≤ x := by rcases hxr.1 with h | h <;> [exact h.ge; exact le_trans hL.le h]
  rw [JSNum.add_fin_fin]
  by_cases h0 : a = 0 ∧ x = 0
  · obtain ⟨rfl, rfl⟩ := h0
    have eA := ha.eq_zero hA
    have eX := hx.eq_zero hX
    refine ⟨0, by simp [JSNum.roundDouble], ?_, Or.inl rfl, by positivity⟩
    rw [eA, eX]; simpa using Spec.Within.zero (k + 1)
  · have hlo : (2 : ℚ) ^ (-40 : ℤ) ≤ a + x := by
      rcases ha0 with h | h
      · rcases hxr.1 with h' | h'
        · exact absurd ⟨h, h'⟩ h0
        · linarith
      · linarith
    have hhi : a + x ≤ (2 * (j : ℚ) + 1) * (2 : ℚ) ^ (90 : ℤ) := by
      have := hxr.2; linarith
    have hhi2 : a + x < (2 : ℚ) ^ (1023 : ℤ) := by
      have h1 : (2 * (j : ℚ) + 1) * (2 : ℚ) ^ (90 : ℤ) ≤
          (2 * 2 ^ 32 + 1) * (2 : ℚ) ^ (90 : ℤ) :=
        mul_le_mul_of_nonneg_right (by linarith) hM.le
      have h2 : (2 * 2 ^ 32 + 1) * (2 : ℚ) ^ (90 : ℤ) < (2 : ℚ) ^ (1023 : ℤ) := by norm_num
      linarith
    obtain ⟨s, hs, herr, -, hmlo, -⟩ :=
      JSNum.roundDouble_bound (a + x) (le_trans (by norm_num) hlo) hhi2
    refine ⟨s, hs, (ha.add hx).round herr, Or.inr (hmlo _ hlo), ?_⟩
    rw [abs_le] at herr
    have h1 : s ≤ (a + x) * (1 + 1 / 2 ^ 53) := by linarith [herr.2]
    have h2 : (a + x) * (1 + 1 / 2 ^ 53) ≤
        (2 * (j : ℚ) + 1) * (2 : ℚ) ^ (90 : ℤ) * (1 + 1 / 2 ^ 53) :=
      mul_le_mul_of_nonneg_right hhi (by norm_num)
    have h3 : (2 * (j : ℚ) + 1) * (1 + 1 / 2 ^ 53) ≤ 2 * ((j : ℚ) + 1) := by
      have : (2 * (j : ℚ) + 1) / 2 ^ 53 ≤ 1 := by
        rw [div_le_one (by positivity)]
        have : (2 : ℚ) * 2 ^ 32 + 1 ≤ 2 ^ 53 := by norm_num
        linarith
      linarith
    have h4 : (2 * (j : ℚ) + 1) * (2 : ℚ) ^ (90 : ℤ) * (1 + 1 / 2 ^ 53) ≤
        2 * ((j : ℚ) + 1) * (2 : ℚ) ^ (90 : ℤ) := by
      have := mul_le_mul_of_nonneg_right h3 hM.le
      linarith
    push_cast
    linarith

/-- The sum of `averageStats` over samples whose field is within `kv` roundings of a
metric. -/
theorem foldl_within (field : Stats → JSNum) (metric : OllamaResponse → ℚ) (kv : ℕ)
    (rs : List OllamaResponse) :
    ∀ (j k : ℕ) (a A : ℚ),
      (∀ r ∈ rs, ∃ x, field (calculateStats r) = JSNum.fin x ∧
        Spec.Within kv x (metric r) ∧ Spec.InRange x ∧ 0 ≤ metric r) →
      kv ≤ k → j + rs.length ≤ 2 ^ 32 → Spec.Within k a A → 0 ≤ A →
      (a = 0 ∨ (2 : ℚ) ^ (-40 : ℤ) ≤ a) → a ≤ 2 * (j : ℚ) * (2 : ℚ) ^ (90 : ℤ) →
      ∃ s, (rs.map calculateStats).foldl (fun (sum : JSNum) st => sum.add (field st))
          (JSNum.fin a) = JSNum.fin s ∧
        Spec.Within (k + rs.length) s (A + (rs.map metric).sum) ∧
        (s = 0 ∨ (2 : ℚ) ^ (-40 : ℤ) ≤ s) ∧
        s ≤ 2 * ((j + rs.length : ℕ) : ℚ) * (2 : ℚ) ^ (90 : ℤ) := by
  induction rs with
  | nil =>
    intro j k a A _ _ _ ha _ ha0 ha1
    exact ⟨a, rfl, by simpa using ha, ha0, by simpa using ha1⟩
  | cons r rs ih =>
    intro j k a A hr hk hj ha hA ha0 ha1
    obtain ⟨x, hfx, hwx, hxr, hm⟩ := hr r (List.mem_cons_self _ _)
    simp only [List.length_cons] at hj
    obtain ⟨s1, hs1, hw1, h10, h11⟩ :=
      add_within k j a A x (metric r) ha (hwx.mono hm hk) hA hm (by omega) ha0 ha1 hxr
    obtain ⟨s, hs, hw, h0, h1⟩ := ih (j + 1) (k + 1) s1 (A + metric r)
      (fun r' hr' => hr r' (List.mem_cons_of_mem _ hr')) (by omega) (by omega) hw1
      (by linarith) h10 h11
    refine ⟨s, ?_, ?_, h0, ?_⟩
    · simp only [List.map_cons, List.foldl_cons]
      rw [hfx, hs1, hs]
    · simp only [List.length_cons, List.map_cons, List.sum_cons]
      have e1 : k + (rs.length + 1) = k + 1 + rs.length := by omega
      rw [e1, ← add_assoc]
      exact hw
    · simp only [List.length_cons]
      have e1 : j + (rs.length + 1) = j + 1 + rs.length := by omega
      rw [e1]
      exact h1

/-- The mean of `averageStats`: the number handed to `toFixed(2)` is within
`length + kv + 1` roundings of the arithmetic mean of the metric. -/
theorem averageField_within (field : Stats → JSNum) (metric : OllamaResponse → ℚ) (kv : ℕ)
    (rs : List OllamaResponse) (hne : rs ≠ []) (hlen : rs.length < 2 ^ 32)
    (hr : ∀ r ∈ rs, ∃ x, field (calculateStats r) = JSNum.fin x ∧
      Spec.Within kv x (metric r) ∧ Spec.InRange x ∧ 0 ≤ metric r) :
    ∃ m, averageField (rs.map calculateStats) field = (JSNum.fin m).toFixed 2 ∧
      Spec.Within (rs.length + kv + 1) m (Spec.mean (rs.map metric)) ∧ 0 ≤ m ∧
      0 ≤ Spec.mean (rs.map metric) := by
  obtain ⟨s, hs, hw, h0, h1⟩ := foldl_within field metric kv rs 0 kv 0 0 hr (le_refl _)
    (by omega) (Spec.Within.zero kv) (le_refl _) (Or.inl rfl) (by simp)
  have hN : 0 < rs.length := List.length_pos.mpr hne
  have hNq : (1 : ℚ) ≤ (rs.length : ℚ) := by exact_mod_cast hN
  have hNq2 : (rs.length : ℚ) ≤ 2 ^ 32 := by exact_mod_cast hlen.le
  have hsum : 0 ≤ (rs.map metric).sum := by
    apply List.sum_nonneg
    intro y hy
    obtain ⟨r, hr', rfl⟩ := List.mem_map.mp hy
    obtain ⟨x, -, -, -, hm⟩ := hr r hr'
    exact hm
  have hmean : 0 ≤ Spec.mean (rs.map metric) := by
    unfold Spec.mean
    exact div_nonneg hsum (Nat.cast_nonneg _)
  have hw' : Spec.Within (rs.length + kv) (s / (rs.length : ℚ)) (Spec.mean (rs.map metric)) := by
    unfold Spec.mean
    rw [List.length_map]
    have := hw.div_right (rs.length : ℚ) (by linarith)
    rw [zero_add, add_comm kv] at this
    exact this
  unfold averageField
  rw [hs, List.length_map]
  rcases h0 with h0 | h0
  · subst h0
    refine ⟨0, ?_, ?_, le_refl _, hmean⟩
    · have : (JSNum.fin 0).div (JSNum.fin (rs.length : ℚ)) = JSNum.fin 0 := by
        have h1 : (rs.length : ℚ) ≠ 0 := by linarith
        have h2 : ¬ ((rs.length : ℚ) < 0) := by linarith
        simp [JSNum.div, h1, JSNum.zeroOf, h2]
      rw [this]
    · have hz : Spec.mean (rs.map metric) = 0 := by
        have : Spec.Within (rs.length + kv) 0 (Spec.mean (rs.map metric)) := by
          simpa using hw'
        exact this.eq_zero hmean
      rw [hz]
      exact Spec.Within.zero _
  · have hspos : 0 < s := lt_of_lt_of_le (by positivity) h0
    have hlo : (2 : ℚ) ^ (-72 : ℤ) ≤ s / (rs.length : ℚ) := by
      rw [le_div_iff₀ (by linarith)]
      have h72 : (2 : ℚ) ^ (-72 : ℤ) * 2 ^ 32 = (2 : ℚ) ^ (-40 : ℤ) := by norm_num
      have : (2 : ℚ) ^ (-72 : ℤ) * (rs.length : ℚ) ≤ (2 : ℚ) ^ (-72 : ℤ) * 2 ^ 32 :=
        mul_le_mul_of_nonneg_left hNq2 (by positivity)
      linarith
    have hhi : s / (rs.length : ℚ) < (2 : ℚ) ^ (1023 : ℤ) := by
      have h2 : s / (rs.length : ℚ) ≤ s := div_le_self hspos.le hNq
      have h3 : s ≤ 2 * 2 ^ 32 * (2 : ℚ) ^ (90 : ℤ) := by
        have : 2 * (((0 + rs.length : ℕ)) : ℚ) * (2 : ℚ) ^ (90 : ℤ) ≤
            2 * 2 ^ 32 * (2 : ℚ) ^ (90 : ℤ) := by
          have hM : (0 : ℚ) ≤ (2 : ℚ) ^ (90 : ℤ) := by positivity
          have : (((0 + rs.length : ℕ)) : ℚ) ≤ 2 ^ 32 := by
            rw [zero_add]; exact hNq2
          nlinarith
        linarith
      have h4 : 2 * 2 ^ 32 * (2 : ℚ) ^ (90 : ℤ) < (2 : ℚ) ^ (1023 : ℤ) := by norm_num
      linarith
    obtain ⟨m, hm, herr, -, hmlo, -⟩ :=
      JSNum.roundDouble_bound (s / (rs.length : ℚ)) (le_trans (by norm_num) hlo) hhi
    refine ⟨m, ?_, hw'.round herr, ?_, hmean⟩
    · rw [JSNum.div_fin_fin _ _ hspos.ne' (by linarith), hm]
    · exact le_trans (by positivity) (hmlo _ hlo)

/-! ## Lemmas on well-formed numbers -/

namespace JSNum

theorem roundDouble_wellFormed (x : ℚ) : (roundDouble x).WellFormed := by
  unfold roundDouble
  by_cases h0 : x = 0
  · rw [if_pos h0]; exact isDouble_zero
  · rw [if_neg h0]
    by_cases hp : 0 < x
    · rw [if_pos hp]
      cases h : roundPos x with
      | fin y => exact (roundPos_isDouble x hp y h).1
      | negZero => trivial
      | posInf => trivial
      | negInf => trivial
      | nan => trivial
    · rw [if_neg hp]
      have hneg : 0 < -x := by
        rcases lt_trichotomy x 0 with h1 | h1 | h1
        · linarith
        · exact absurd h1 h0
        · exact absurd h1 hp
      cases h : roundPos (-x) with
      | fin y =>
        have hy := (roundPos_isDouble (-x) hneg y h).1
        unfold neg
        by_cases hy0 : y = 0
        · simp [hy0, WellFormed]
        · simp only [hy0, if_false, WellFormed]
          exact isDouble_neg y hy
      | negZero => exact isDouble_zero
      | posInf => trivial
      | negInf => trivial
      | nan => trivial

theorem zeroOf_wellFormed (b : Bool) : (zeroOf b).WellFormed := by
  cases b
  · exact isDouble_zero
  · trivial

theorem infOf_wellFormed (b : Bool) : (infOf b).WellFormed := by
  cases b <;> trivial

theorem add_wellFormed (x y : JSNum) (hx : x.WellFormed) (hy : y.WellFormed) :
    (x.add y).WellFormed := by
  cases x <;> cases y <;>
    first
    | exact roundDouble_wellFormed _
    | exact hx
    | exact hy

theorem div_wellFormed (x y : JSNum) : (x.div y).WellFormed := by
  cases x <;> cases y <;> simp only [div] <;>
    first
    | trivial
    | exact zeroOf_wellFormed _
    | exact infOf_wellFormed _
    | exact isDouble_zero
    | (split_ifs <;>
        first
        | trivial
        | exact zeroOf_wellFormed _
        | exact infOf_wellFormed _
        | exact roundDouble_wellFormed _)

/-- Adding a well-formed number to the positive zero: the number, the positive zero for
the negative one. -/
theorem zero_add_eq (x : JSNum) (hx : x.WellFormed) :
    (fin 0).add x = match x with
      | negZero => fin 0
      | y => y := by
  cases x with
  | fin q =>
    show roundDouble (0 + q) = fin q
    rw [zero_add]; exact roundDouble_of_isDouble q hx
  | negZero => rfl
  | posInf => rfl
  | negInf => rfl
  | nan => rfl

theorem add_comm' (x y : JSNum) : x.add y = y.add x := by
  cases x <;> cases y <;> simp [add, add_comm]

/-- The first two additions of a sum commute. -/
theorem zero_add_add_swap (x y : JSNum) (hx : x.WellFormed) (hy : y.WellFormed) :
    ((fin 0).add x).add y = ((fin 0).add y).add x := by
  rw [zero_add_eq x hx, zero_add_eq y hy]
  cases x with
  | fin a =>
    cases y with
    | fin b => exact add_comm' _ _
    | negZero =>
      show fin a = roundDouble (0 + a)
      rw [zero_add, roundDouble_of_isDouble a hx]
    | posInf => rfl
    | negInf => rfl
    | nan => rfl
  | negZero =>
    cases y with
    | fin b =>
      show roundDouble (0 + b) = fin b
      rw [zero_add, roundDouble_of_isDouble b hy]
    | negZero => rfl
    | posInf => rfl
    | negInf => rfl
    | nan => rfl
  | posInf => cases y <;> rfl
  | negInf => cases y <;> rfl
  | nan => cases y <;> rfl

/-- The mean of one well-formed number prints as the number. -/
theorem single_mean (x : JSNum) (hx : x.WellFormed) :
    (((fin 0).add x).div (fin 1)).toFixed 2 = x.toFixed 2 := by
  rw [zero_add_eq x hx]
  cases x with
  | fin q =>
    by_cases hq : q = 0
    · subst hq
      norm_num [div, zeroOf]
    · rw [div_fin_fin q 1 hq one_ne_zero, div_one, roundDouble_of_isDouble q hx]
  | negZero =>
    norm_num [div, zeroOf, toFixed]
  | posInf => norm_num [div, infOf]
  | negInf => norm_num [div, infOf]
  | nan => simp [div]

end JSNum

/-! ## Lemmas for the evaluation on concrete numbers -/

namespace JSNum

theorem roundDouble_eval' (x y : ℚ) (e n : ℤ) (he1 : -1022 ≤ e) (he2 : e ≤ 1022)
    (hlo : (2 : ℚ) ^ e ≤ x) (hhi : x < (2 : ℚ) ^ (e + 1))
    (hn : (-(1 / 2) < x / (2 : ℚ) ^ (e - 52) - n ∧ x / (2 : ℚ) ^ (e - 52) - n < 1 / 2) ∨
      ((x / (2 : ℚ) ^ (e - 52) - n = 1 / 2 ∨ x / (2 : ℚ) ^ (e - 52) - n = -(1 / 2)) ∧
        n % 2 = 0))
    (hy : y = (n : ℚ) * (2 : ℚ) ^ (e - 52)) : roundDouble x = fin y := by
  refine roundDouble_eval x y e n he1 he2 hlo hhi ?_ hy
  rcases hn with h | ⟨h, h'⟩
  · exact Or.inl (abs_lt.mpr h)
  · exact Or.inr ⟨(abs_eq (by norm_num)).mpr h, h'⟩

theorem div_eval (a b y : ℚ) (e n : ℤ) (ha : a ≠ 0) (hb : b ≠ 0) (he1 : -1022 ≤ e)
    (he2 : e ≤ 1022) (hlo : (2 : ℚ) ^ e ≤ a / b) (hhi : a / b < (2 : ℚ) ^ (e + 1))
    (hn : (-(1 / 2) < a / b / (2 : ℚ) ^ (e - 52) - n ∧
        a / b / (2 : ℚ) ^ (e - 52) - n < 1 / 2) ∨
      ((a / b / (2 : ℚ) ^ (e - 52) - n = 1 / 2 ∨
        a / b / (2 : ℚ) ^ (e - 52) - n = -(1 / 2)) ∧ n % 2 = 0))
    (hy : y = (n : ℚ) * (2 : ℚ) ^ (e - 52)) : (fin a).div (fin b) = fin y := by
  rw [div_fin_fin a b ha hb]
  exact roundDouble_eval' _ y e n he1 he2 hlo hhi hn hy

theorem add_eval (a b y : ℚ) (e n : ℤ) (he1 : -1022 ≤ e)
    (he2 : e ≤ 1022) (hlo : (2 : ℚ) ^ e ≤ a + b) (hhi : a + b < (2 : ℚ) ^ (e + 1))
    (hn : (-(1 / 2) < (a + b) / (2 : ℚ) ^ (e - 52) - n ∧
        (a + b) / (2 : ℚ) ^ (e - 52) - n < 1 / 2) ∨
      (((a + b) / (2 : ℚ) ^ (e - 52) - n = 1 / 2 ∨
        (a + b) / (2 : ℚ) ^ (e - 52) - n = -(1 / 2)) ∧ n % 2 = 0))
    (hy : y = (n : ℚ) * (2 : ℚ) ^ (e - 52)) : (fin a).add (fin b) = fin y := by
  rw [add_fin_fin a b]
  exact roundDouble_eval' _ y e n he1 he2 hlo hhi hn hy

theorem ofInt_eval (i : ℤ) (y : ℚ) (h : |i| ≤ 2 ^ 53) (hy : y = (i : ℚ)) : ofInt i = fin y := by
  rw [hy]; exact ofInt_eq i h

theorem zero_add_fin (y : ℚ) (e n : ℤ) (he : -1074 ≤ e) (hn : |n| < 2 ^ 53)
    (hy : y = (n : ℚ) * (2 : ℚ) ^ e) (hlt : |y| < (2 : ℚ) ^ (1024 : ℕ)) :
    (fin 0).add (fin y) = fin y := by
  rw [add_fin_fin, zero_add]
  exact roundDouble_of_isDouble y ⟨n, e, he, hn, hy, hlt⟩

theorem ofInt_eval_double (i : ℤ) (y : ℚ) (n e : ℤ) (he : -1074 ≤ e) (hn : |n| < 2 ^ 53)
    (hi : (i : ℚ) = (n : ℚ) * (2 : ℚ) ^ e) (hlt : |(i : ℚ)| < (2 : ℚ) ^ (1024 : ℕ))
    (hy : y = (i : ℚ)) : ofInt i = fin y := by
  rw [hy]
  exact roundDouble_of_isDouble _ ⟨n, e, he, hn, hi, hlt⟩

end JSNum

/-- The record of `calculateStats` from the value of each of its operations. -/
theorem calculateStats_eval (r : OllamaResponse)
    (pc ec pd ed td s1 s2 n ds s3 p q t d : ℚ)
    (hpc : JSNum.ofInt r.prompt_eval_count = JSNum.fin pc)
    (hec : JSNum.ofInt r.eval_count = JSNum.fin ec)
    (hpd : JSNum.ofInt r.prompt_eval_duration = JSNum.fin pd)
    (hed : JSNum.ofInt r.eval_duration = JSNum.fin ed)
    (htd : JSNum.ofInt r.total_duration = JSNum.fin td)
    (hs1 : (JSNum.fin pd).div (JSNum.fin 1000000000) = JSNum.fin s1)
    (hs2 : (JSNum.fin ed).div (JSNum.fin 1000000000) = JSNum.fin s2)
    (hn : (JSNum.fin pc).add (JSNum.fin ec) = JSNum.fin n)
    (hds : (JSNum.fin pd).add (JSNum.fin ed) = JSNum.fin ds)
    (hs3 : (JSNum.fin ds).div (JSNum.fin 1000000000) = JSNum.fin s3)
    (hp : (JSNum.fin pc).div (JSNum.fin s1) = JSNum.fin p)
    (hq : (JSNum.fin ec).div (JSNum.fin s2) = JSNum.fin q)
    (ht : (JSNum.fin n).div (JSNum.fin s3) = JSNum.fin t)
    (hd : (JSNum.fin td).div (JSNum.fin 1000000000) = JSNum.fin d) :
    calculateStats r =
      { promptTokensPerSecond := .fin p, responseTokensPerSecond := .fin q,
        totalTokensPerSecond := .fin t, totalTokens := .fin n, totalDuration := .fin d } := by
  unfold calculateStats JSNum.e9
  simp only
  rw [hpc, hec, hpd, hed, htd, hs1, hs2, hn, hds, hs3, hp, hq, ht, hd]

theorem promptTokensPerSecond_eval (r : OllamaResponse) (pc pd s1 p : ℚ)
    (hpc : JSNum.ofInt r.prompt_eval_count = JSNum.fin pc)
    (hpd : JSNum.ofInt r.prompt_eval_duration = JSNum.fin pd)
    (hs1 : (JSNum.fin pd).div (JSNum.fin 1000000000) = JSNum.fin s1)
    (hp : (JSNum.fin pc).div (JSNum.fin s1) = JSNum.fin p) :
    (calculateStats r).promptTokensPerSecond = JSNum.fin p := by
  show (JSNum.ofInt r.prompt_eval_count).div
    ((JSNum.ofInt r.prompt_eval_duration).div JSNum.e9) = JSNum.fin p
  unfold JSNum.e9
  rw [hpc, hpd, hs1, hp]

theorem totalDuration_eval (r : OllamaResponse) (td d : ℚ)
    (htd : JSNum.ofInt r.total_duration = JSNum.fin td)
    (hd : (JSNum.fin td).div (JSNum.fin 1000000000) = JSNum.fin d) :
    (calculateStats r).totalDuration = JSNum.fin d := by
  show (JSNum.ofInt r.total_duration).div JSNum.e9 = JSNum.fin d
  unfold JSNum.e9
  rw [htd, hd]

/-- The field of `averageStats` on three samples from the value of each operation. -/
theorem averageField_three (r1 r2 r3 : OllamaResponse) (field : Stats → JSNum)
    (v1 v2 v3 a1 a2 a3 m : ℚ)
    (h1 : field (calculateStats r1) = JSNum.fin v1)
    (h2 : field (calculateStats r2) = JSNum.fin v2)
    (h3 : field (calculateStats r3) = JSNum.fin v3)
    (ha1 : (JSNum.fin 0).add (JSNum.fin v1) = JSNum.fin a1)
    (ha2 : (JSNum.fin a1).add (JSNum.fin v2) = JSNum.fin a2)
    (ha3 : (JSNum.fin a2).add (JSNum.fin v3) = JSNum.fin a3)
    (hm : (JSNum.fin a3).div (JSNum.fin 3) = JSNum.fin m) :
    averageField ([r1, r2, r3].map calculateStats) field = (JSNum.fin m).toFixed 2 := by
  unfold averageField
  simp only [List.map_cons, List.map_nil, List.foldl_cons, List.foldl_nil, List.length_cons,
    List.length_nil]
  rw [h1, h2, h3, ha1, ha2, ha3]
  norm_num
  rw [hm]


/-! ## Lemmas on the exponential notation -/

theorem toFixed_large (q : ℚ) (f : ℕ) (h0 : ¬ q < 0) (h1 : (10 : ℚ) ^ 21 ≤ q) :
    (JSNum.fin q).toFixed f = String.mk (numberToStringLarge q) := by
  unfold JSNum.toFixed
  simp only [h0, if_false, h1, if_true]
  rw [List.nil_append]

theorem shortestCandidate_lo (x : ℚ) (n0 k lo : ℕ)
    (hlo : (⌊x / (10 : ℚ) ^ (n0 - k)⌋).toNat = lo)
    (h1 : JSNum.roundDouble ((lo : ℚ) * (10 : ℚ) ^ (n0 - k)) = JSNum.fin x)
    (h2 : JSNum.roundDouble (((lo + 1 : ℕ) : ℚ) * (10 : ℚ) ^ (n0 - k)) ≠ JSNum.fin x) :
    shortestCandidate x n0 k = some (lo, n0) := by
  unfold shortestCandidate
  simp only [hlo, h1, h2, decide_True, decide_False, Bool.false_and, Bool.false_eq_true,
    if_false, if_true]

theorem numberToStringLarge_of_digits (x : ℚ) (n0 : ℕ) (r : ℕ × ℕ)
    (h0 : (Nat.toDigits 10 (⌊x⌋).toNat).length = n0)
    (hr : shortestDigits x n0 17 1 = some r) :
    numberToStringLarge x =
      (match Nat.toDigits 10 r.1 with
        | [] => []
        | [d] => [d]
        | d :: rest => d :: '.' :: rest) ++ ['e', '+'] ++ Nat.toDigits 10 (r.2 - 1) := by
  unfold numberToStringLarge
  simp only [h0, hr]

theorem roundDouble_e21 : JSNum.roundDouble ((10 : ℚ) ^ 21) = JSNum.fin ((10 : ℚ) ^ 21) :=
  JSNum.roundDouble_of_isDouble _
    ⟨476837158203125, 21, by norm_num, by norm_num, by norm_num, by norm_num⟩

theorem roundDouble_2e21 :
    JSNum.roundDouble (2 * (10 : ℚ) ^ 21) = JSNum.fin (2 * (10 : ℚ) ^ 21) :=
  JSNum.roundDouble_of_isDouble _
    ⟨476837158203125, 22, by norm_num, by norm_num, by norm_num, by norm_num⟩

theorem toFixed_e21 : (JSNum.fin ((10 : ℚ) ^ 21)).toFixed 2 = "1e+21" := by
  rw [toFixed_large _ _ (by norm_num) (le_refl _)]
  have e1 : (Nat.toDigits 10 (⌊(10 : ℚ) ^ 21⌋).toNat).length = 22 := by
    have : (⌊(10 : ℚ) ^ 21⌋).toNat = 10 ^ 21 := by
      have : ((10 : ℚ) ^ 21) = (((10 ^ 21 : ℕ) : ℤ) : ℚ) := by norm_num
      rw [this, Int.floor_intCast, Int.toNat_ofNat]
    rw [this]
    decide
  have c : shortestCandidate ((10 : ℚ) ^ 21) 22 1 = some (1, 22) := by
    apply shortestCandidate_lo
    · norm_num
    · have g1 : ((1 : ℕ) : ℚ) * (10 : ℚ) ^ (22 - 1) = (10 : ℚ) ^ 21 := by norm_num
      rw [g1, roundDouble_e21]
    · have g2 : (((1 + 1 : ℕ)) : ℚ) * (10 : ℚ) ^ (22 - 1) = 2 * (10 : ℚ) ^ 21 := by norm_num
      rw [g2, roundDouble_2e21]
      intro h
      have := JSNum.fin.inj h
      norm_num at this
  have s : shortestDigits ((10 : ℚ) ^ 21) 22 17 1 = some (1, 22) := by
    rw [shortestDigits, c]
  rw [numberToStringLarge_of_digits _ 22 (1, 22) e1 s]
  decide

/-! ## Lemmas on the summary fields -/

theorem roundHalfUp2_mono {a b : ℚ} (h : a ≤ b) : Spec.roundHalfUp2 a ≤ Spec.roundHalfUp2 b := by
  unfold Spec.roundHalfUp2
  have : ⌊a * 100 + 1 / 2⌋ ≤ ⌊b * 100 + 1 / 2⌋ := Int.floor_mono (by linarith)
  have h' : ((⌊a * 100 + 1 / 2⌋ : ℤ) : ℚ) ≤ ((⌊b * 100 + 1 / 2⌋ : ℤ) : ℚ) := by
    exact_mod_cast this
  exact div_le_div_of_nonneg_right h' (by norm_num)

/-- A summary field is the rounded mean of the specification up to the roundings. -/
theorem averageField_rounded (field : Stats → JSNum) (metric : OllamaResponse → ℚ)
    (rs : List OllamaResponse) (hne : rs ≠ []) (hlen : rs.length < 2 ^ 32)
    (hr : ∀ r ∈ rs, ∃ x, field (calculateStats r) = JSNum.fin x ∧
      Spec.Within 3 x (metric r) ∧ Spec.InRange x ∧ 0 ≤ metric r) :
    Spec.RoundedMeanField rs metric (averageField (rs.map calculateStats) field) := by
  obtain ⟨m, hm, hw, hm0, hE⟩ := averageField_within field metric 3 rs hne hlen hr
  have hw' : Spec.Within (rs.length + 4) m (Spec.mean (rs.map metric)) := hw
  intro hb
  have hlt : m < (10 : ℚ) ^ 21 := lt_of_le_of_lt hw'.2 hb
  have hstr := toFixed_two_eq_spec m hm0 hlt
  refine ⟨⟨m, hw', by rw [hm, hstr]⟩, ?_⟩
  intro heq
  rw [hm, hstr]
  unfold Spec.summaryField
  congr 1
  have hlo : Spec.mean (rs.map metric) * (1 - Spec.u) ^ (rs.length + 4) ≤
      Spec.mean (rs.map metric) := by
    have : (1 - Spec.u) ^ (rs.length + 4) ≤ 1 :=
      pow_le_one₀ Spec.one_sub_u_pos.le Spec.one_sub_u_le_one
    nlinarith
  have hhi : Spec.mean (rs.map metric) ≤
      Spec.mean (rs.map metric) * (1 + Spec.u) ^ (rs.length + 4) := by
    have : 1 ≤ (1 + Spec.u) ^ (rs.length + 4) := one_le_pow₀ Spec.one_le_one_add_u
    nlinarith
  have a1 := roundHalfUp2_mono hw'.1
  have a2 := roundHalfUp2_mono hw'.2
  have b1 := roundHalfUp2_mono hlo
  have b2 := roundHalfUp2_mono hhi
  rw [heq] at a1 b1
  exact le_antisymm (le_trans a2 b1) (le_trans b2 a1)

/-- The five fields of `calculateStats` on bounded samples against the five metrics. -/
theorem fields_within (rs : List OllamaResponse) (hv : ∀ r ∈ rs, Spec.BoundedSample r) :
    (∀ r ∈ rs, ∃ x, (calculateStats r).promptTokensPerSecond = JSNum.fin x ∧
      Spec.Within 3 x (Spec.promptTokensPerSecond r) ∧ Spec.InRange x ∧
      0 ≤ Spec.promptTokensPerSecond r) ∧
    (∀ r ∈ rs, ∃ x, (calculateStats r).responseTokensPerSecond = JSNum.fin x ∧
      Spec.Within 3 x (Spec.responseTokensPerSecond r) ∧ Spec.InRange x ∧
      0 ≤ Spec.responseTokensPerSecond r) ∧
    (∀ r ∈ rs, ∃ x, (calculateStats r).totalTokensPerSecond = JSNum.fin x ∧
      Spec.Within 3 x (Spec.totalTokensPerSecond r) ∧ Spec.InRange x ∧
      0 ≤ Spec.totalTokensPerSecond r) ∧
    (∀ r ∈ rs, ∃ x, (calculateStats r).totalTokens = JSNum.fin x ∧
      Spec.Within 3 x (Spec.totalTokens r) ∧ Spec.InRange x ∧ 0 ≤ Spec.totalTokens r) ∧
    (∀ r ∈ rs, ∃ x, (calculateStats r).totalDuration = JSNum.fin x ∧
      Spec.Within 3 x (Spec.totalDuration r) ∧ Spec.InRange x ∧
      0 ≤ Spec.totalDuration r) := by
  have key : ∀ r ∈ rs, _ := fun r hr => calculateStats_within r (hv r hr)
  have pos : ∀ r ∈ rs, 0 ≤ Spec.promptTokensPerSecond r ∧ 0 ≤ Spec.responseTokensPerSecond r ∧
      0 ≤ Spec.totalTokensPerSecond r ∧ 0 ≤ Spec.totalTokens r ∧ 0 ≤ Spec.totalDuration r := by
    intro r hr
    obtain ⟨c1, c2, c3, c4, d1, d2, d3, d4, t1, t2⟩ := hv r hr
    have e1 : (0 : ℚ) ≤ (r.prompt_eval_count : ℚ) := by exact_mod_cast c1
    have e2 : (0 : ℚ) ≤ (r.eval_count : ℚ) := by exact_mod_cast c3
    have e3 : (0 : ℚ) < (r.prompt_eval_duration : ℚ) := by exact_mod_cast d1
    have e4 : (0 : ℚ) < (r.eval_duration : ℚ) := by exact_mod_cast d3
    have e5 : (0 : ℚ) ≤ (r.total_duration : ℚ) := by exact_mod_cast t1
    simp only [Spec.promptTokensPerSecond, Spec.responseTokensPerSecond,
      Spec.totalTokensPerSecond, Spec.totalTokens, Spec.totalDuration, Spec.seconds]
    push_cast
    refine ⟨?_, ?_, ?_, ?_, ?_⟩ <;> positivity
  refine ⟨?_, ?_, ?_, ?_, ?_⟩ <;> intro r hr <;>
    obtain ⟨p, q, t, d, hrec, hp, hq, ht, hd, rp, rq, rt, rn, rd⟩ := key r hr <;>
    obtain ⟨n1, n2, n3, n4, n5⟩ := pos r hr
  · exact ⟨p, by rw [hrec], hp, rp, n1⟩
  · exact ⟨q, by rw [hrec], hq, rq, n2⟩
  · exact ⟨t, by rw [hrec], ht, rt, n3⟩
  · exact ⟨_, by rw [hrec]; rfl, (Spec.Within.refl _).mono n4 (by omega), rn, n4⟩
  · exact ⟨d, by rw [hrec], hd.mono n5 (by omega), rd, n5⟩

theorem calculateStats_wellFormed (r : OllamaResponse) :
    (calculateStats r).promptTokensPerSecond.WellFormed ∧
      (calculateStats r).responseTokensPerSecond.WellFormed ∧
      (calculateStats r).totalTokensPerSecond.WellFormed ∧
      (calculateStats r).totalTokens.WellFormed ∧
      (calculateStats r).totalDuration.WellFormed :=
  ⟨JSNum.div_wellFormed _ _, JSNum.div_wellFormed _ _, JSNum.div_wellFormed _ _,
    JSNum.add_wellFormed _ _ (JSNum.roundDouble_wellFormed _) (JSNum.roundDouble_wellFormed _),
    JSNum.div_wellFormed _ _⟩

theorem averageField_swap (a b : Stats) (rest : List Stats) (field : Stats → JSNum)
    (ha : (field a).WellFormed) (hb : (field b).WellFormed) :
    averageField (a :: b :: rest) field = averageField (b :: a :: rest) field := by
  unfold averageField
  simp only [List.foldl_cons, List.length_cons]
  rw [JSNum.zero_add_add_swap (field a) (field b) ha hb]

theorem averageField_single (a : Stats) (field : Stats → JSNum) (ha : (field a).WellFormed) :
    averageField [a] field = (field a).toFixed 2 := by
  unfold averageField
  simp only [List.foldl_cons, List.foldl_nil, List.length_cons, List.length_nil]
  have : (((0 + 1 : ℕ)) : ℚ) = 1 := by norm_num
  rw [this]
  exact JSNum.single_mean (field a) ha

/-- A summary field on `N` copies of a bounded sample: the number handed to `toFixed(2)`
is within `N + 1` roundings of the field's value. -/
theorem averageField_replicate (s : OllamaResponse) (N : ℕ) (hN : 1 ≤ N) (hN2 : N < 2 ^ 32)
    (field : Stats → JSNum) (x : ℚ) (hx : field (calculateStats s) = JSNum.fin x)
    (hr : Spec.InRange x) :
    Spec.NearField (field (calculateStats s)) N
      (averageField ((List.replicate N s).map calculateStats) field) := by
  have hx0 : 0 ≤ x := by
    rcases hr.1 with h | h
    · exact h.ge
    · exact le_trans (by positivity) h
  obtain ⟨m, hm, hw, -, -⟩ := averageField_within field (fun _ => x) 0 (List.replicate N s)
    (by intro h; have := congrArg List.length h; simp at this; omega)
    (by rw [List.length_replicate]; exact hN2)
    (by
      intro r hr'
      rw [List.eq_of_mem_replicate hr']
      exact ⟨x, hx, Spec.Within.refl x, hr, hx0⟩)
  refine ⟨x, m, hx, ?_, hm⟩
  have hmean : Spec.mean ((List.replicate N s).map (fun _ => x)) = x := by
    unfold Spec.mean
    have hNq : ((N : ℚ)) ≠ 0 := by
      have : 0 < N := hN
      positivity
    simp only [List.map_replicate, List.sum_replicate, List.length_replicate, nsmul_eq_mul]
    field_simp
  rw [hmean, List.length_replicate] at hw
  exact hw

namespace Spec

theorem Within.mul_le_exact {k : ℕ} {a A : ℚ} (h : Within k a A) (hA : 0 ≤ A) :
    a * (1 - u) ^ k ≤ A := by
  have h1 : a * (1 - u) ^ k ≤ A * (1 + u) ^ k * (1 - u) ^ k :=
    mul_le_mul_of_nonneg_right h.2 (pow_nonneg one_sub_u_pos.le k)
  have h2 : (1 + u) ^ k * (1 - u) ^ k ≤ 1 := by
    rw [← mul_pow]
    apply pow_le_one₀
    · exact mul_nonneg (by have := u_pos; linarith) one_sub_u_pos.le
    · have := u_pos; nlinarith
  have h3 : A * ((1 + u) ^ k * (1 - u) ^ k) ≤ A * 1 := mul_le_mul_of_nonneg_left h2 hA
  linarith

theorem Within.exact_le_mul {k : ℕ} {a A : ℚ} (h : Within k a A) (hA : 0 ≤ A) :
    A ≤ a * (1 + u) ^ (2 * k) := by
  have h1 : A * (1 - u) ^ k * (1 + u) ^ (2 * k) ≤ a * (1 + u) ^ (2 * k) :=
    mul_le_mul_of_nonneg_right h.1 (pow_nonneg (by have := u_pos; linarith) _)
  have h2 : 1 ≤ (1 - u) ^ k * (1 + u) ^ (2 * k) := by
    rw [pow_mul, ← mul_pow]
    apply one_le_pow₀
    have : (1 - u) * (1 + u) ^ 2 = 1 + u * (1 - u - u ^ 2) := by ring
    rw [this]
    have : 0 ≤ u * (1 - u - u ^ 2) := by
      apply mul_nonneg u_pos.le
      unfold u; norm_num
    linarith
  have h3 : A * 1 ≤ A * ((1 - u) ^ k * (1 + u) ^ (2 * k)) := mul_le_mul_of_nonneg_left h2 hA
  linarith

end Spec

theorem mediant_bounds (a c B D : ℚ) (hB : 0 < B) (hD : 0 < D) :
    min (a / B) (c / D) ≤ (a + c) / (B + D) ∧ (a + c) / (B + D) ≤ max (a / B) (c / D) := by
  have hBD : 0 < B + D := by positivity
  rcases le_total (a / B) (c / D) with h | h
  · have h' : a * D ≤ c * B := (div_le_div_iff₀ hB hD).mp h
    constructor
    · rw [min_eq_left h, div_le_div_iff₀ hB hBD]; nlinarith
    · rw [max_eq_right h, div_le_div_iff₀ hBD hD]; nlinarith
  · have h' : c * B ≤ a * D := (div_le_div_iff₀ hD hB).mp h
    constructor
    · rw [min_eq_right h, div_le_div_iff₀ hD hBD]; nlinarith
    · rw [max_eq_left h, div_le_div_iff₀ hBD hB]; nlinarith

/-! ## Evaluation on the concrete samples -/

theorem sampleA_s1 :
    (JSNum.fin 2000000000).div (JSNum.fin 1000000000) = JSNum.fin 2 :=
  JSNum.div_eval _ _ _ (1) 4503599627370496 (by norm_num) (by norm_num) (by norm_num) (by norm_num)
    (by norm_num) (by norm_num) (Or.inl (by norm_num)) (by norm_num)

theorem sampleA_s2 :
    (JSNum.fin 10000000000).div (JSNum.fin 1000000000) = JSNum.fin 10 :=
  JSNum.div_eval _ _ _ (3) 5629499534213120 (by norm_num) (by norm_num) (by norm_num) (by norm_num)
    (by norm_num) (by norm_num) (Or.inl (by norm_num)) (by norm_num)

theorem sampleA_n :
    (JSNum.fin 10).add (JSNum.fin 100) = JSNum.fin 110 :=
  JSNum.add_eval _ _ _ (6) 7740561859543040 (by norm_num) (by norm_num) (by norm_num) (by norm_num)
    (Or.inl (by norm_num)) (by norm_num)

theorem sampleA_ds :
    (JSNum.fin 2000000000).add (JSNum.fin 10000000000) = JSNum.fin 12000000000 :=
  JSNum.add_eval _ _ _ (33) 6291456000000000 (by norm_num) (by norm_num) (by norm_num) (by norm_num)
    (Or.inl (by norm_num)) (by norm_num)

theorem sampleA_s3 :
    (JSNum.fin 12000000000).div (JSNum.fin 1000000000) = JSNum.fin 12 :=
  JSNum.div_eval _ _ _ (3) 6755399441055744 (by norm_num) (by norm_num) (by norm_num) (by norm_num)
    (by norm_num) (by norm_num) (Or.inl (by norm_num)) (by norm_num)

theorem sampleA_p :
    (JSNum.fin 10).div (JSNum.fin 2) = JSNum.fin 5 :=
  JSNum.div_eval _ _ _ (2) 5629499534213120 (by norm_num) (by norm_num) (by norm_num) (by norm_num)
    (by norm_num) (by norm_num) (Or.inl (by norm_num)) (by norm_num)

theorem sampleA_q :
    (JSNum.fin 100).div (JSNum.fin 10) = JSNum.fin 10 :=
  JSNum.div_eval _ _ _ (3) 5629499534213120 (by norm_num) (by norm_num) (by norm_num) (by norm_num)
    (by norm_num) (by norm_num) (Or.inl (by norm_num)) (by norm_num)

theorem sampleA_t :
    (JSNum.fin 110).div (JSNum.fin 12) = JSNum.fin (5160374573028693 / 562949953421312) :=
  JSNum.div_eval _ _ _ (3) 5160374573028693 (by norm_num) (by norm_num) (by norm_num) (by norm_num)
    (by norm_num) (by norm_num) (Or.inl (by norm_num)) (by norm_num)

theorem sampleA_d :
    (JSNum.fin 12000000000).div (JSNum.fin 1000000000) = JSNum.fin 12 :=
  JSNum.div_eval _ _ _ (3) 6755399441055744 (by norm_num) (by norm_num) (by norm_num) (by norm_num)
    (by norm_num) (by norm_num) (Or.inl (by norm_num)) (by norm_num)

theorem calculateStats_sampleA :
    calculateStats sampleA =
      { promptTokensPerSecond := .fin 5, responseTokensPerSecond := .fin 10,
        totalTokensPerSecond := .fin (5160374573028693 / 562949953421312), totalTokens := .fin 110,
        totalDuration := .fin 12 } :=
  calculateStats_eval sampleA _ _ _ _ _ _ _ _ _ _ _ _ _ _
    (JSNum.ofInt_eval 10 10 (by norm_num) (by norm_num))
    (JSNum.ofInt_eval 100 100 (by norm_num) (by norm_num))
    (JSNum.ofInt_eval 2000000000 2000000000 (by norm_num) (by norm_num))
    (JSNum.ofInt_eval 10000000000 10000000000 (by norm_num) (by norm_num))
    (JSNum.ofInt_eval 12000000000 12000000000 (by norm_num) (by norm_num))
    sampleA_s1 sampleA_s2 sampleA_n sampleA_ds sampleA_s3 sampleA_p sampleA_q sampleA_t sampleA_d

theorem sampleA_p_str : (JSNum.fin 5).toFixed 2 = "5.00" := by
  rw [toFixed_two_eq_spec _ (by norm_num) (by norm_num)]
  unfold Spec.decimalString2 Spec.roundHalfUp2
  norm_num
  try decide

theorem sampleA_q_str : (JSNum.fin 10).toFixed 2 = "10.00" := by
  rw [toFixed_two_eq_spec _ (by norm_num) (by norm_num)]
  unfold Spec.decimalString2 Spec.roundHalfUp2
  norm_num
  try decide

theorem sampleA_t_str : (JSNum.fin (5160374573028693 / 562949953421312)).toFixed 2 = "9.17" := by
  rw [toFixed_two_eq_spec _ (by norm_num) (by norm_num)]
  unfold Spec.decimalString2 Spec.roundHalfUp2
  norm_num
  try decide

theorem sampleA_n_str : (JSNum.fin 110).toFixed 2 = "110.00" := by
  rw [toFixed_two_eq_spec _ (by norm_num) (by norm_num)]
  unfold Spec.decimalString2 Spec.roundHalfUp2
  norm_num
  try decide

theorem sampleA_d_str : (JSNum.fin 12).toFixed 2 = "12.00" := by
  rw [toFixed_two_eq_spec _ (by norm_num) (by norm_num)]
  unfold Spec.decimalString2 Spec.roundHalfUp2
  norm_num
  try decide

theorem sampleHuge_s1 :
    (JSNum.fin 1000000000).div (JSNum.fin 1000000000) = JSNum.fin 1 :=
  JSNum.div_eval _ _ _ (0) 4503599627370496 (by norm_num) (by norm_num) (by norm_num) (by norm_num)
    (by norm_num) (by norm_num) (Or.inl (by norm_num)) (by norm_num)

theorem sampleHuge_s2 :
    (JSNum.fin 1000000000).div (JSNum.fin 1000000000) = JSNum.fin 1 :=
  JSNum.div_eval _ _ _ (0) 4503599627370496 (by norm_num) (by norm_num) (by norm_num) (by norm_num)
    (by norm_num) (by norm_num) (Or.inl (by norm_num)) (by norm_num)

theorem sampleHuge_n :
    (JSNum.fin 1000000000000000000000).add (JSNum.fin 0) = JSNum.fin 1000000000000000000000 :=
  JSNum.add_eval _ _ _ (69) 7629394531250000 (by norm_num) (by norm_num) (by norm_num) (by norm_num)
    (Or.inl (by norm_num)) (by norm_num)

theorem sampleHuge_ds :
    (JSNum.fin 1000000000).add (JSNum.fin 1000000000) = JSNum.fin 2000000000 :=
  JSNum.add_eval _ _ _ (30) 8388608000000000 (by norm_num) (by norm_num) (by norm_num) (by norm_num)
    (Or.inl (by norm_num)) (by norm_num)

theorem sampleHuge_s3 :
    (JSNum.fin 2000000000).div (JSNum.fin 1000000000) = JSNum.fin 2 :=
  JSNum.div_eval _ _ _ (1) 4503599627370496 (by norm_num) (by norm_num) (by norm_num) (by norm_num)
    (by norm_num) (by norm_num) (Or.inl (by norm_num)) (by norm_num)

theorem sampleHuge_p :
    (JSNum.fin 1000000000000000000000).div (JSNum.fin 1) = JSNum.fin 1000000000000000000000 :=
  JSNum.div_eval _ _ _ (69) 7629394531250000 (by norm_num) (by norm_num) (by norm_num) (by norm_num)
    (by norm_num) (by norm_num) (Or.inl (by norm_num)) (by norm_num)

theorem sampleHuge_q :
    (JSNum.fin 0).div (JSNum.fin 1) = JSNum.fin 0 := by
  norm_num [JSNum.div, JSNum.zeroOf]

theorem sampleHuge_t :
    (JSNum.fin 1000000000000000000000).div (JSNum.fin 2) = JSNum.fin 500000000000000000000 :=
  JSNum.div_eval _ _ _ (68) 7629394531250000 (by norm_num) (by norm_num) (by norm_num) (by norm_num)
    (by norm_num) (by norm_num) (Or.inl (by norm_num)) (by norm_num)

theorem sampleHuge_d :
    (JSNum.fin 2000000000).div (JSNum.fin 1000000000) = JSNum.fin 2 :=
  JSNum.div_eval _ _ _ (1) 4503599627370496 (by norm_num) (by norm_num) (by norm_num) (by norm_num)
    (by norm_num) (by norm_num) (Or.inl (by norm_num)) (by norm_num)

theorem calculateStats_sampleHuge :
    calculateStats sampleHuge =
      { promptTokensPerSecond := .fin 1000000000000000000000, responseTokensPerSecond := .fin 0,
        totalTokensPerSecond := .fin 500000000000000000000, totalTokens := .fin 1000000000000000000000,
        totalDuration := .fin 2 } :=
  calculateStats_eval sampleHuge _ _ _ _ _ _ _ _ _ _ _ _ _ _
    (JSNum.ofInt_eval_double 1000000000000000000000 1000000000000000000000 476837158203125 21 (by norm_num) (by norm_num) (by norm_num) (by norm_num) (by norm_num))
    (JSNum.ofInt_eval 0 0 (by norm_num) (by norm_num))
    (JSNum.ofInt_eval 1000000000 1000000000 (by norm_num) (by norm_num))
    (JSNum.ofInt_eval 1000000000 1000000000 (by norm_num) (by norm_num))
    (JSNum.ofInt_eval 2000000000 2000000000 (by norm_num) (by norm_num))
    sampleHuge_s1 sampleHuge_s2 sampleHuge_n sampleHuge_ds sampleHuge_s3 sampleHuge_p sampleHuge_q sampleHuge_t sampleHuge_d

theorem sampleMediant_s1 :
    (JSNum.fin 25000075).div (JSNum.fin 1000000000) = JSNum.fin (7205781021071005 / 288230376151711744) :=
  JSNum.div_eval _ _ _ (-6) 7205781021071005 (by norm_num) (by norm_num) (by norm_num) (by norm_num)
    (by norm_num) (by norm_num) (Or.inl (by norm_num)) (by norm_num)

theorem sampleMediant_s2 :
    (JSNum.fin 50000150).div (JSNum.fin 1000000000) = JSNum.fin (7205781021071005 / 144115188075855872) :=
  JSNum.div_eval _ _ _ (-5) 7205781021071005 (by norm_num) (by norm_num) (by norm_num) (by norm_num)
    (by norm_num) (by norm_num) (Or.inl (by norm_num)) (by norm_num)

theorem sampleMediant_n :
    (JSNum.fin 1).add (JSNum.fin 2) = JSNum.fin 3 :=
  JSNum.add_eval _ _ _ (1) 6755399441055744 (by norm_num) (by norm_num) (by norm_num) (by norm_num)
    (Or.inl (by norm_num)) (by norm_num)

theorem sampleMediant_ds :
    (JSNum.fin 25000075).add (JSNum.fin 50000150) = JSNum.fin 75000225 :=
  JSNum.add_eval _ _ _ (26) 5033179899494400 (by norm_num) (by norm_num) (by norm_num) (by norm_num)
    (Or.inl (by norm_num)) (by norm_num)

theorem sampleMediant_s3 :
    (JSNum.fin 75000225).div (JSNum.fin 1000000000) = JSNum.fin (2702167882901627 / 36028797018963968) :=
  JSNum.div_eval _ _ _ (-4) 5404335765803254 (by norm_num) (by norm_num) (by norm_num) (by norm_num)
    (by norm_num) (by norm_num) (Or.inl (by norm_num)) (by norm_num)

theorem sampleMediant_p :
    (JSNum.fin 1).div (JSNum.fin (7205781021071005 / 288230376151711744)) = JSNum.fin (5629482645765183 / 140737488355328) :=
  JSNum.div_eval _ _ _ (5) 5629482645765183 (by norm_num) (by norm_num) (by norm_num) (by norm_num)
    (by norm_num) (by norm_num) (Or.inl (by norm_num)) (by norm_num)

theorem sampleMediant_q :
    (JSNum.fin 2).div (JSNum.fin (7205781021071005 / 144115188075855872)) = JSNum.fin (5629482645765183 / 140737488355328) :=
  JSNum.div_eval _ _ _ (5) 5629482645765183 (by norm_num) (by norm_num) (by norm_num) (by norm_num)
    (by norm_num) (by norm_num) (Or.inl (by norm_num)) (by norm_num)

theorem sampleMediant_t :
    (JSNum.fin 3).div (JSNum.fin (2702167882901627 / 36028797018963968)) = JSNum.fin (2814741322882591 / 70368744177664) :=
  JSNum.div_eval _ _ _ (5) 5629482645765182 (by norm_num) (by norm_num) (by norm_num) (by norm_num)
    (by norm_num) (by norm_num) (Or.inl (by norm_num)) (by norm_num)

theorem sampleMediant_d :
    (JSNum.fin 75000225).div (JSNum.fin 1000000000) = JSNum.fin (2702167882901627 / 36028797018963968) :=
  JSNum.div_eval _ _ _ (-4) 5404335765803254 (by norm_num) (by norm_num) (by norm_num) (by norm_num)
    (by norm_num) (by norm_num) (Or.inl (by norm_num)) (by norm_num)

theorem calculateStats_sampleMediant :
    calculateStats sampleMediant =
      { promptTokensPerSecond := .fin (5629482645765183 / 140737488355328), responseTokensPerSecond := .fin (5629482645765183 / 140737488355328),
        totalTokensPerSecond := .fin (2814741322882591 / 70368744177664), totalTokens := .fin 3,
        totalDuration := .fin (2702167882901627 / 36028797018963968) } :=
  calculateStats_eval sampleMediant _ _ _ _ _ _ _ _ _ _ _ _ _ _
    (JSNum.ofInt_eval 1 1 (by norm_num) (by norm_num))
    (JSNum.ofInt_eval 2 2 (by norm_num) (by norm_num))
    (JSNum.ofInt_eval 25000075 25000075 (by norm_num) (by norm_num))
    (JSNum.ofInt_eval 50000150 50000150 (by norm_num) (by norm_num))
    (JSNum.ofInt_eval 75000225 75000225 (by norm_num) (by norm_num))
    sampleMediant_s1 sampleMediant_s2 sampleMediant_n sampleMediant_ds sampleMediant_s3 sampleMediant_p sampleMediant_q sampleMediant_t sampleMediant_d

theorem sample45ms_d :
    (JSNum.fin 45000000).div (JSNum.fin 1000000000) = JSNum.fin (3242591731706757 / 72057594037927936) :=
  JSNum.div_eval _ _ _ (-5) 6485183463413514 (by norm_num) (by norm_num) (by norm_num) (by norm_num)
    (by norm_num) (by norm_num) (Or.inl (by norm_num)) (by norm_num)

theorem totalDuration_sample45ms :
    (calculateStats sample45ms).totalDuration = JSNum.fin (3242591731706757 / 72057594037927936) :=
  totalDuration_eval sample45ms _ _ (JSNum.ofInt_eval 45000000 45000000 (by norm_num) (by norm_num)) sample45ms_d

theorem sample45ms_str : (JSNum.fin (3242591731706757 / 72057594037927936)).toFixed 2 = "0.04" := by
  rw [toFixed_two_eq_spec _ (by norm_num) (by norm_num)]
  unfold Spec.decimalString2 Spec.roundHalfUp2
  norm_num
  try decide

theorem average_three_45ms_a1 :
    (JSNum.fin 0).add (JSNum.fin (3242591731706757 / 72057594037927936)) = JSNum.fin (3242591731706757 / 72057594037927936) :=
  JSNum.add_eval _ _ _ (-5) 6485183463413514 (by norm_num) (by norm_num) (by norm_num) (by norm_num)
    (Or.inl (by norm_num)) (by norm_num)

theorem average_three_45ms_a2 :
    (JSNum.fin (3242591731706757 / 72057594037927936)).add (JSNum.fin (3242591731706757 / 72057594037927936)) = JSNum.fin (3242591731706757 / 36028797018963968) :=
  JSNum.add_eval _ _ _ (-4) 6485183463413514 (by norm_num) (by norm_num) (by norm_num) (by norm_num)
    (Or.inl (by norm_num)) (by norm_num)

theorem average_three_45ms_a3 :
    (JSNum.fin (3242591731706757 / 36028797018963968)).add (JSNum.fin (3242591731706757 / 72057594037927936)) = JSNum.fin (607985949695017 / 4503599627370496) :=
  JSNum.add_eval _ _ _ (-3) 4863887597560136 (by norm_num) (by norm_num) (by norm_num) (by norm_num)
    (Or.inr ⟨Or.inr (by norm_num), by decide⟩) (by norm_num)

theorem average_three_45ms_m :
    (JSNum.fin (607985949695017 / 4503599627370496)).div (JSNum.fin 3) = JSNum.fin (6485183463413515 / 144115188075855872) :=
  JSNum.div_eval _ _ _ (-5) 6485183463413515 (by norm_num) (by norm_num) (by norm_num) (by norm_num)
    (by norm_num) (by norm_num) (Or.inl (by norm_num)) (by norm_num)

theorem average_three_45ms_str : (JSNum.fin (6485183463413515 / 144115188075855872)).toFixed 2 = "0.05" := by
  rw [toFixed_two_eq_spec _ (by norm_num) (by norm_num)]
  unfold Spec.decimalString2 Spec.roundHalfUp2
  norm_num
  try decide

theorem average_three_45ms :
    (averageStats (List.replicate 3 sample45ms) []).1.totalDuration = "0.05" :=
  (averageField_three _ _ _ (fun s => s.totalDuration) _ _ _ _ _ _ _
    totalDuration_sample45ms totalDuration_sample45ms totalDuration_sample45ms
    average_three_45ms_a1 average_three_45ms_a2 average_three_45ms_a3 average_three_45ms_m).trans average_three_45ms_str

theorem sample5ms_d :
    (JSNum.fin 5000000).div (JSNum.fin 1000000000) = JSNum.fin (5764607523034235 / 1152921504606846976) :=
  JSNum.div_eval _ _ _ (-8) 5764607523034235 (by norm_num) (by norm_num) (by norm_num) (by norm_num)
    (by norm_num) (by norm_num) (Or.inl (by norm_num)) (by norm_num)

theorem totalDuration_sample5ms :
    (calculateStats sample5ms).totalDuration = JSNum.fin (5764607523034235 / 1152921504606846976) :=
  totalDuration_eval sample5ms _ _ (JSNum.ofInt_eval 5000000 5000000 (by norm_num) (by norm_num)) sample5ms_d

theorem sample65ms_d :
    (JSNum.fin 65000000).div (JSNum.fin 1000000000) = JSNum.fin (1170935903116329 / 18014398509481984) :=
  JSNum.div_eval _ _ _ (-4) 4683743612465316 (by norm_num) (by norm_num) (by norm_num) (by norm_num)
    (by norm_num) (by norm_num) (Or.inl (by norm_num)) (by norm_num)

theorem totalDuration_sample65ms :
    (calculateStats sample65ms).totalDuration = JSNum.fin (1170935903116329 / 18014398509481984) :=
  totalDuration_eval sample65ms _ _ (JSNum.ofInt_eval 65000000 65000000 (by norm_num) (by norm_num)) sample65ms_d

theorem average_5_5_65_a1 :
    (JSNum.fin 0).add (JSNum.fin (5764607523034235 / 1152921504606846976)) = JSNum.fin (5764607523034235 / 1152921504606846976) :=
  JSNum.add_eval _ _ _ (-8) 5764607523034235 (by norm_num) (by norm_num) (by norm_num) (by norm_num)
    (Or.inl (by norm_num)) (by norm_num)

theorem average_5_5_65_a2 :
    (JSNum.fin (5764607523034235 / 1152921504606846976)).add (JSNum.fin (5764607523034235 / 1152921504606846976)) = JSNum.fin (5764607523034235 / 576460752303423488) :=
  JSNum.add_eval _ _ _ (-7) 5764607523034235 (by norm_num) (by norm_num) (by norm_num) (by norm_num)
    (Or.inl (by norm_num)) (by norm_num)

theorem average_5_5_65_a3 :
    (JSNum.fin (5764607523034235 / 576460752303423488)).add (JSNum.fin (1170935903116329 / 18014398509481984)) = JSNum.fin (5404319552844595 / 72057594037927936) :=
  JSNum.add_eval _ _ _ (-4) 5404319552844595 (by norm_num) (by norm_num) (by norm_num) (by norm_num)
    (Or.inl (by norm_num)) (by norm_num)

theorem average_5_5_65_m :
    (JSNum.fin (5404319552844595 / 72057594037927936)).div (JSNum.fin 3) = JSNum.fin (7205759403792793 / 288230376151711744) :=
  JSNum.div_eval _ _ _ (-6) 7205759403792793 (by norm_num) (by norm_num) (by norm_num) (by norm_num)
    (by norm_num) (by norm_num) (Or.inl (by norm_num)) (by norm_num)

theorem average_5_5_65_str : (JSNum.fin (7205759403792793 / 288230376151711744)).toFixed 2 = "0.02" := by
  rw [toFixed_two_eq_spec _ (by norm_num) (by norm_num)]
  unfold Spec.decimalString2 Spec.roundHalfUp2
  norm_num
  try decide

theorem average_5_5_65 :
    (averageStats [sample5ms, sample5ms, sample65ms] []).1.totalDuration = "0.02" :=
  (averageField_three _ _ _ (fun s => s.totalDuration) _ _ _ _ _ _ _
    totalDuration_sample5ms totalDuration_sample5ms totalDuration_sample65ms
    average_5_5_65_a1 average_5_5_65_a2 average_5_5_65_a3 average_5_5_65_m).trans average_5_5_65_str

theorem average_65_5_5_a1 :
    (JSNum.fin 0).add (JSNum.fin (1170935903116329 / 18014398509481984)) = JSNum.fin (1170935903116329 / 18014398509481984) :=
  JSNum.add_eval _ _ _ (-4) 4683743612465316 (by norm_num) (by norm_num) (by norm_num) (by norm_num)
    (Or.inl (by norm_num)) (by norm_num)

theorem average_65_5_5_a2 :
    (JSNum.fin (1170935903116329 / 18014398509481984)).add (JSNum.fin (5764607523034235 / 1152921504606846976)) = JSNum.fin (1261007895663739 / 18014398509481984) :=
  JSNum.add_eval _ _ _ (-4) 5044031582654956 (by norm_num) (by norm_num) (by norm_num) (by norm_num)
    (Or.inl (by norm_num)) (by norm_num)

theorem average_65_5_5_a3 :
    (JSNum.fin (1261007895663739 / 18014398509481984)).add (JSNum.fin (5764607523034235 / 1152921504606846976)) = JSNum.fin (1351079888211149 / 18014398509481984) :=
  JSNum.add_eval _ _ _ (-4) 5404319552844596 (by norm_num) (by norm_num) (by norm_num) (by norm_num)
    (Or.inl (by norm_num)) (by norm_num)

theorem average_65_5_5_m :
    (JSNum.fin (1351079888211149 / 18014398509481984)).div (JSNum.fin 3) = JSNum.fin (7205759403792795 / 288230376151711744) :=
  JSNum.div_eval _ _ _ (-6) 7205759403792795 (by norm_num) (by norm_num) (by norm_num) (by norm_num)
    (by norm_num) (by norm_num) (Or.inl (by norm_num)) (by norm_num)

theorem average_65_5_5_str : (JSNum.fin (7205759403792795 / 288230376151711744)).toFixed 2 = "0.03" := by
  rw [toFixed_two_eq_spec _ (by norm_num) (by norm_num)]
  unfold Spec.decimalString2 Spec.roundHalfUp2
  norm_num
  try decide

theorem average_65_5_5 :
    (averageStats [sample65ms, sample5ms, sample5ms] []).1.totalDuration = "0.03" :=
  (averageField_three _ _ _ (fun s => s.totalDuration) _ _ _ _ _ _ _
    totalDuration_sample65ms totalDuration_sample5ms totalDuration_sample5ms
    average_65_5_5_a1 average_65_5_5_a2 average_65_5_5_a3 average_65_5_5_m).trans average_65_5_5_str

theorem sample201_s1 :
    (JSNum.fin 200000000000).div (JSNum.fin 1000000000) = JSNum.fin 200 :=
  JSNum.div_eval _ _ _ (7) 7036874417766400 (by norm_num) (by norm_num) (by norm_num) (by norm_num)
    (by norm_num) (by norm_num) (Or.inl (by norm_num)) (by norm_num)

theorem sample201_p :
    (JSNum.fin 201).div (JSNum.fin 200) = JSNum.fin (1131529406376837 / 1125899906842624) :=
  JSNum.div_eval _ _ _ (0) 4526117625507348 (by norm_num) (by norm_num) (by norm_num) (by norm_num)
    (by norm_num) (by norm_num) (Or.inl (by norm_num)) (by norm_num)

theorem promptTokensPerSecond_sample201 :
    (calculateStats sample201).promptTokensPerSecond = JSNum.fin (1131529406376837 / 1125899906842624) :=
  promptTokensPerSecond_eval sample201 _ _ _ _ (JSNum.ofInt_eval 201 201 (by norm_num) (by norm_num)) (JSNum.ofInt_eval 200000000000 200000000000 (by norm_num) (by norm_num)) sample201_s1 sample201_p

theorem sample201_str : (JSNum.fin (1131529406376837 / 1125899906842624)).toFixed 2 = "1.00" := by
  rw [toFixed_two_eq_spec _ (by norm_num) (by norm_num)]
  unfold Spec.decimalString2 Spec.roundHalfUp2
  norm_num
  try decide

/-! ## The claims -/

theorem sampleA_bounded : Spec.BoundedSample sampleA := by
  norm_num [Spec.BoundedSample, sampleA]

theorem sampleB_bounded : Spec.BoundedSample sampleB := by
  norm_num [Spec.BoundedSample, sampleB]

theorem sample5ms_bounded : Spec.BoundedSample sample5ms := by
  norm_num [Spec.BoundedSample, sample5ms, sampleA]

theorem sample65ms_bounded : Spec.BoundedSample sample65ms := by
  norm_num [Spec.BoundedSample, sample65ms, sampleA]

/-- C1, as stated, fails: on the sample of the scenarios the exact total rate is `55/6`,
which no double equals; `calculateStats` returns the double nearest to it,
`9.166666666666666`. -/
theorem C1_counterexample :
    0 ≤ sampleA.prompt_eval_count ∧ 0 ≤ sampleA.eval_count ∧
      0 < sampleA.prompt_eval_duration ∧ 0 < sampleA.eval_duration ∧
      ((sampleA.prompt_eval_count + sampleA.eval_count : ℤ) : ℚ) /
        (((sampleA.prompt_eval_duration + sampleA.eval_duration : ℤ) : ℚ) / 10 ^ 9) =
          55 / 6 ∧
      (calculateStats sampleA).totalTokensPerSecond =
        .fin (5160374573028693 / 562949953421312) ∧
      (calculateStats sampleA).totalTokensPerSecond ≠ .fin (55 / 6) := by
  refine ⟨by decide, by decide, by decide, by decide, by norm_num [sampleA], ?_, ?_⟩
  · rw [calculateStats_sampleA]
  · rw [calculateStats_sampleA]
    intro h
    have := JSNum.fin.inj h
    norm_num at this

/-- C1 (amended). On a sample with non-negative counts and positive evaluation durations
of at most `2^52` (and a total duration from `0` to `2^53`), `calculateStats` returns
finite doubles: `totalTokens` is exactly the integer sum of the counts, each rate is its
exact quotient `count / (duration / 10^9)` up to the three roundings of its expression
(a factor between `(1 - 2^-53)^3` and `(1 + 2^-53)^3`, never an integer truncation), and
`totalDuration` is `total_duration / 10^9` up to one rounding. -/
theorem C1_calculateStats_rounded (r : OllamaResponse) (h : Spec.BoundedSample r) :
    ∃ p q t d : ℚ,
      calculateStats r =
        { promptTokensPerSecond := .fin p, responseTokensPerSecond := .fin q,
          totalTokensPerSecond := .fin t,
          totalTokens := .fin ((r.prompt_eval_count + r.eval_count : ℤ) : ℚ),
          totalDuration := .fin d } ∧
      Spec.Within 3 p ((r.prompt_eval_count : ℚ) / ((r.prompt_eval_duration : ℚ) / 10 ^ 9)) ∧
      Spec.Within 3 q ((r.eval_count : ℚ) / ((r.eval_duration : ℚ) / 10 ^ 9)) ∧
      Spec.Within 3 t (((r.prompt_eval_count + r.eval_count : ℤ) : ℚ) /
        (((r.prompt_eval_duration + r.eval_duration : ℤ) : ℚ) / 10 ^ 9)) ∧
      Spec.Within 1 d ((r.total_duration : ℚ) / 10 ^ 9) := by
  obtain ⟨p, q, t, d, hrec, hp, hq, ht, hd, -⟩ := calculateStats_within r h
  exact ⟨p, q, t, d, hrec, hp, hq, ht, hd⟩

/-- Witness of C1 on the sample of the scenarios, where 10 tokens over 2 s give exactly 5,
100 tokens over 10 s exactly 10, and the total is 110 tokens. -/
theorem C1_calculateStats_rounded_witness :
    Spec.BoundedSample sampleA ∧
      (∃ p q t d : ℚ,
        calculateStats sampleA =
          { promptTokensPerSecond := .fin p, responseTokensPerSecond := .fin q,
            totalTokensPerSecond := .fin t,
            totalTokens := .fin ((sampleA.prompt_eval_count + sampleA.eval_count : ℤ) : ℚ),
            totalDuration := .fin d } ∧
        Spec.Within 3 p
          ((sampleA.prompt_eval_count : ℚ) / ((sampleA.prompt_eval_duration : ℚ) / 10 ^ 9)) ∧
        Spec.Within 3 q ((sampleA.eval_count : ℚ) / ((sampleA.eval_duration : ℚ) / 10 ^ 9)) ∧
        Spec.Within 3 t (((sampleA.prompt_eval_count + sampleA.eval_count : ℤ) : ℚ) /
          (((sampleA.prompt_eval_duration + sampleA.eval_duration : ℤ) : ℚ) / 10 ^ 9)) ∧
        Spec.Within 1 d ((sampleA.total_duration : ℚ) / 10 ^ 9)) ∧
      calculateStats sampleA =
        { promptTokensPerSecond := .fin 5, responseTokensPerSecond := .fin 10,
          totalTokensPerSecond := .fin (5160374573028693 / 562949953421312),
          totalTokens := .fin 110, totalDuration := .fin 12 } :=
  ⟨sampleA_bounded, C1_calculateStats_rounded sampleA sampleA_bounded, calculateStats_sampleA⟩

theorem valid_singleton (s : OllamaResponse) (h : Spec.ValidSample s) :
    ∀ r ∈ [s], Spec.ValidSample r := by
  intro r hr
  rw [List.mem_singleton] at hr
  rw [hr]; exact h

theorem sampleHuge_valid : Spec.ValidSample sampleHuge := by
  unfold Spec.ValidSample sampleHuge; decide

theorem sample201_valid : Spec.ValidSample sample201 := by
  unfold Spec.ValidSample sample201 sampleA; decide

theorem averageStats_single_prompt (s : OllamaResponse) (console : Console) :
    (averageStats [s] console).1.promptTokensPerSecond =
      (calculateStats s).promptTokensPerSecond.toFixed 2 :=
  averageField_single _ _ (calculateStats_wellFormed s).1

theorem summary_huge :
    Spec.summaryField [sampleHuge] Spec.promptTokensPerSecond =
      "1000000000000000000000.00" := by
  have hm : Spec.mean ([sampleHuge].map Spec.promptTokensPerSecond) = (10 : ℚ) ^ 21 := by
    norm_num [Spec.mean, Spec.promptTokensPerSecond, Spec.seconds, sampleHuge]
  unfold Spec.summaryField
  rw [hm]
  unfold Spec.decimalString2 Spec.roundHalfUp2
  norm_num
  decide

theorem summary_201 :
    Spec.summaryField [sample201] Spec.promptTokensPerSecond = "1.01" := by
  have hm : Spec.mean ([sample201].map Spec.promptTokensPerSecond) = 201 / 200 := by
    norm_num [Spec.mean, Spec.promptTokensPerSecond, Spec.seconds, sample201, sampleA]
  unfold Spec.summaryField
  rw [hm]
  unfold Spec.decimalString2 Spec.roundHalfUp2
  norm_num
  decide

/-- C2, as stated, fails twice.  A valid sample with `10^21` prompt tokens in one second
has the mean `10^21`, which `toFixed(2)` prints as `1e+21`; and a valid sample with 201
prompt tokens in 200 s has the exact mean 1.005, whose half-up rounding is `1.01`, while
the double nearest to 1.005 lies below it and prints as `1.00`. -/
theorem C2_counterexample :
    ([sampleHuge] ≠ [] ∧ (∀ r ∈ [sampleHuge], Spec.ValidSample r) ∧
      (averageStats [sampleHuge] []).1.promptTokensPerSecond = "1e+21" ∧
      Spec.summaryField [sampleHuge] Spec.promptTokensPerSecond =
        "1000000000000000000000.00") ∧
    ([sample201] ≠ [] ∧ (∀ r ∈ [sample201], Spec.ValidSample r) ∧
      (averageStats [sample201] []).1.promptTokensPerSecond = "1.00" ∧
      Spec.summaryField [sample201] Spec.promptTokensPerSecond = "1.01") := by
  refine ⟨⟨by simp, valid_singleton _ sampleHuge_valid, ?_, summary_huge⟩,
    ⟨by simp, valid_singleton _ sample201_valid, ?_, summary_201⟩⟩
  · rw [averageStats_single_prompt, calculateStats_sampleHuge]
    exact toFixed_e21
  · rw [averageStats_single_prompt, promptTokensPerSecond_sample201]
    exact sample201_str

/-- C2 (amended). On a non-empty list of fewer than `2^32` samples with non-negative
counts and positive evaluation durations of at most `2^52` (total durations from `0` to
`2^53`), each of the five fields of `averageStats`, when the mean with the roundings of
the code stays below `10^21`, is the decimal string with exactly two fractional digits of
the half-up rounding of a number within `length + 4` roundings of the arithmetic mean of
the exact metric; it is the string of the rounded arithmetic mean itself whenever the
half-up rounding is the same over that whole range. -/
theorem C2_averageStats_rounded_mean (rs : List OllamaResponse) (console : Console)
    (hne : rs ≠ []) (hlen : rs.length < 2 ^ 32) (hv : ∀ r ∈ rs, Spec.BoundedSample r) :
    Spec.RoundedMeanField rs Spec.promptTokensPerSecond
      (averageStats rs console).1.promptTokensPerSecond ∧
    Spec.RoundedMeanField rs Spec.responseTokensPerSecond
      (averageStats rs console).1.responseTokensPerSecond ∧
    Spec.RoundedMeanField rs Spec.totalTokensPerSecond
      (averageStats rs console).1.totalTokensPerSecond ∧
    Spec.RoundedMeanField rs Spec.totalTokens (averageStats rs console).1.totalTokens ∧
    Spec.RoundedMeanField rs Spec.totalDuration (averageStats rs console).1.totalDuration := by
  obtain ⟨h1, h2, h3, h4, h5⟩ := fields_within rs hv
  exact ⟨averageField_rounded _ _ rs hne hlen h1, averageField_rounded _ _ rs hne hlen h2,
    averageField_rounded _ _ rs hne hlen h3, averageField_rounded _ _ rs hne hlen h4,
    averageField_rounded _ _ rs hne hlen h5⟩

theorem bounded_pair (a b : OllamaResponse) (ha : Spec.BoundedSample a)
    (hb : Spec.BoundedSample b) : ∀ r ∈ [a, b], Spec.BoundedSample r := by
  intro r hr
  simp only [List.mem_cons, List.mem_singleton, List.not_mem_nil, or_false] at hr
  rcases hr with rfl | rfl
  · exact ha
  · exact hb

theorem mean_prompt_AB : Spec.mean ([sampleA, sampleB].map Spec.promptTokensPerSecond) = 6 := by
  norm_num [Spec.mean, Spec.promptTokensPerSecond, Spec.seconds, sampleA, sampleB]

theorem decimalString2_six : Spec.decimalString2 (Spec.roundHalfUp2 6) = "6.00" := by
  unfold Spec.decimalString2 Spec.roundHalfUp2
  norm_num
  decide

/-- Witness of C2: two samples whose prompt rates are 5 and 7 give `6.00`. -/
theorem C2_averageStats_rounded_mean_witness :
    [sampleA, sampleB] ≠ [] ∧ [sampleA, sampleB].length < 2 ^ 32 ∧
      (∀ r ∈ [sampleA, sampleB], Spec.BoundedSample r) ∧
      (averageStats [sampleA, sampleB] []).1.promptTokensPerSecond = "6.00" :=
  ⟨by simp, by simp, bounded_pair _ _ sampleA_bounded sampleB_bounded,
    (((C2_averageStats_rounded_mean [sampleA, sampleB] [] (by simp) (by simp)
      (bounded_pair _ _ sampleA_bounded sampleB_bounded)).1
        (by rw [mean_prompt_AB]; norm_num [Spec.u])).2
        (by rw [mean_prompt_AB]; norm_num [Spec.u, Spec.roundHalfUp2])).trans (by
          unfold Spec.summaryField
          rw [mean_prompt_AB]
          exact decimalString2_six)⟩

theorem nanStats_empty (console : Console) : (averageStats [] console).1 = nanStats := by
  have h : (JSNum.fin 0).div (JSNum.fin ((0 : ℕ) : ℚ)) = JSNum.nan := by
    simp [JSNum.div]
  simp only [averageStats, averageField, List.map_nil, List.foldl_nil, List.length_nil, h]
  rfl

/-- C3, as stated, fails: on the empty list `averageStats` returns a summary record, the
one whose five fields are the text `NaN`. -/
theorem C3_counterexample : (averageStats [] []).1 = nanStats :=
  nanStats_empty []

/-- C3 (amended). On the empty list `averageStats` returns the record of five `NaN`
texts, never a zero-valued summary; the marker of no data, `null`, is written by the loop
of `main`, which on a model without responses records `null` and logs one line, without
a call of `averageStats`. -/
theorem C3_empty_list_no_data (modelName : String)
    (rest : List (String × List OllamaResponse)) (results : JSObject (Option AvgStats))
    (console : Console) :
    (averageStats [] console).1 = nanStats ∧
    (averageStats [] console).1.promptTokensPerSecond ≠ "0.00" ∧
    mainResults ((modelName, []) :: rest) results console =
      mainResults rest (results.set modelName none)
        (console ++ [LogLine.log ("\nNo valid responses for " ++ modelName)]) := by
  have h : (averageStats [] console).1 = nanStats := nanStats_empty console
  refine ⟨h, ?_, ?_⟩
  · rw [h]; decide
  · simp [mainResults]


/-! ### Identical samples -/

theorem sample45ms_valid : Spec.ValidSample sample45ms := by
  unfold Spec.ValidSample sample45ms sampleA; decide

/-- C4, as stated, fails: on three copies of a sample whose total duration is 45 ms the
three additions and the division give a mean that prints as `0.05`, while `toFixed(2)` of
the sample's own duration, the double nearest to 0.045, is `0.04`. -/
theorem C4_counterexample :
    1 ≤ 3 ∧ Spec.ValidSample sample45ms ∧
      (averageStats (List.replicate 3 sample45ms) []).1.totalDuration = "0.05" ∧
      (calculateStats sample45ms).totalDuration.toFixed 2 = "0.04" := by
  refine ⟨by decide, sample45ms_valid, average_three_45ms, ?_⟩
  rw [totalDuration_sample45ms]
  exact sample45ms_str

/-- C4 (amended). For a single sample (`N = 1`) each of the five fields of `averageStats`
is `toFixed(2)` of that field of `calculateStats(s)`.  For `1 ≤ N < 2^32` copies of a
sample with non-negative counts and positive evaluation durations of at most `2^52`, each
field is `toFixed(2)` of a number within `N + 1` roundings of the field's value (a factor
between `(1 - 2^-53)^(N+1)` and `(1 + 2^-53)^(N+1)`). -/
theorem C4_averageStats_identical (s : OllamaResponse) (N : Nat) (console : Console)
    (hN : 1 ≤ N) (hN2 : N < 2 ^ 32) (hs : Spec.BoundedSample s) :
    (N = 1 → (averageStats (List.replicate N s) console).1 =
      { promptTokensPerSecond := (calculateStats s).promptTokensPerSecond.toFixed 2
        responseTokensPerSecond := (calculateStats s).responseTokensPerSecond.toFixed 2
        totalTokensPerSecond := (calculateStats s).totalTokensPerSecond.toFixed 2
        totalTokens := (calculateStats s).totalTokens.toFixed 2
        totalDuration := (calculateStats s).totalDuration.toFixed 2 }) ∧
    Spec.NearField (calculateStats s).promptTokensPerSecond N
      (averageStats (List.replicate N s) console).1.promptTokensPerSecond ∧
    Spec.NearField (calculateStats s).responseTokensPerSecond N
      (averageStats (List.replicate N s) console).1.responseTokensPerSecond ∧
    Spec.NearField (calculateStats s).totalTokensPerSecond N
      (averageStats (List.replicate N s) console).1.totalTokensPerSecond ∧
    Spec.NearField (calculateStats s).totalTokens N
      (averageStats (List.replicate N s) console).1.totalTokens ∧
    Spec.NearField (calculateStats s).totalDuration N
      (averageStats (List.replicate N s) console).1.totalDuration := by
  obtain ⟨w1, w2, w3, w4, w5⟩ := calculateStats_wellFormed s
  obtain ⟨p, q, t, d, hrec, -, -, -, -, rp, rq, rt, rn, rd⟩ := calculateStats_within s hs
  refine ⟨?_, ?_, ?_, ?_, ?_, ?_⟩
  · intro h1
    subst h1
    show ({ promptTokensPerSecond := averageField [calculateStats s] _
            responseTokensPerSecond := averageField [calculateStats s] _
            totalTokensPerSecond := averageField [calculateStats s] _
            totalTokens := averageField [calculateStats s] _
            totalDuration := averageField [calculateStats s] _ } : AvgStats) = _
    rw [averageField_single _ _ w1, averageField_single _ _ w2, averageField_single _ _ w3,
      averageField_single _ _ w4, averageField_single _ _ w5]
  · exact averageField_replicate s N hN hN2 (fun st => st.promptTokensPerSecond) p
      (by rw [hrec]) rp
  · exact averageField_replicate s N hN hN2 (fun st => st.responseTokensPerSecond) q
      (by rw [hrec]) rq
  · exact averageField_replicate s N hN hN2 (fun st => st.totalTokensPerSecond) t
      (by rw [hrec]) rt
  · exact averageField_replicate s N hN hN2 (fun st => st.totalTokens) _ (by rw [hrec]) rn
  · exact averageField_replicate s N hN hN2 (fun st => st.totalDuration) d (by rw [hrec]) rd

/-- Witness of C4: three copies of the sample of the scenarios. -/
theorem C4_averageStats_identical_witness :
    1 ≤ 3 ∧ 3 < 2 ^ 32 ∧ Spec.BoundedSample sampleA ∧
      Spec.NearField (calculateStats sampleA).totalTokensPerSecond 3
        (averageStats (List.replicate 3 sampleA) []).1.totalTokensPerSecond :=
  ⟨by decide, by decide, sampleA_bounded,
    (C4_averageStats_identical sampleA 3 [] (by decide) (by decide) sampleA_bounded).2.2.2.1⟩

theorem JSObject.get_set {α : Type} (obj : JSObject α) (k k' : String) (v : α) :
    (obj.set k v).get k' = if k = k' then some v else obj.get k' := by
  induction obj with
  | nil => simp [JSObject.set, JSObject.get]
  | cons e rest ih =>
    obtain ⟨k0, v0⟩ := e
    simp only [JSObject.set]
    by_cases h : k0 = k
    · subst h
      simp only [if_true, JSObject.get]
      split_ifs <;> rfl
    · simp only [h, if_false, JSObject.get, ih]
      by_cases h1 : k0 = k'
      · subst h1
        have : ¬ k = k0 := fun e => h e.symm
        simp [this]
      · simp [h1]

theorem JSObject.keys_set {α : Type} (obj : JSObject α) (k : String) (v : α)
    (h : k ∉ obj.map Prod.fst) : (obj.set k v).map Prod.fst = obj.map Prod.fst ++ [k] := by
  induction obj with
  | nil => simp [JSObject.set]
  | cons e rest ih =>
    obtain ⟨k0, v0⟩ := e
    simp only [List.map_cons, List.mem_cons, not_or] at h
    have h0 : ¬ k0 = k := fun e => h.1 e.symm
    simp only [JSObject.set, h0, if_false, List.map_cons, List.cons_append]
    rw [ih h.2]

theorem mainResults_cons (modelName : String) (responses : List OllamaResponse)
    (rest : List (String × List OllamaResponse)) (results : JSObject (Option AvgStats))
    (console : Console) :
    ∃ console1, mainResults ((modelName, responses) :: rest) results console =
      mainResults rest
        (results.set modelName
          (if responses.length > 0 then some (averageStats responses []).1 else none))
        console1 := by
  by_cases h : responses.length > 0
  · exact ⟨_, by simp only [mainResults, h, if_true]; rfl⟩
  · exact ⟨_, by simp only [mainResults, h, if_false]; rfl⟩

theorem mainResults_get_other (entries : List (String × List OllamaResponse))
    (results : JSObject (Option AvgStats)) (console : Console) (k : String)
    (h : k ∉ entries.map Prod.fst) :
    (mainResults entries results console).1.get k = results.get k := by
  induction entries generalizing results console with
  | nil => rfl
  | cons e rest ih =>
    obtain ⟨m, rs⟩ := e
    simp only [List.map_cons, List.mem_cons, not_or] at h
    obtain ⟨c1, hc⟩ := mainResults_cons m rs rest results console
    rw [hc, ih _ _ h.2, JSObject.get_set]
    have : ¬ m = k := fun e => h.1 e.symm
    simp [this]

theorem mainResults_get (entries : List (String × List OllamaResponse))
    (results : JSObject (Option AvgStats)) (console : Console)
    (hnd : (entries.map Prod.fst).Nodup) (m : String) (rs : List OllamaResponse)
    (hm : (m, rs) ∈ entries) :
    (mainResults entries results console).1.get m =
      some (if rs.length > 0 then some (averageStats rs []).1 else none) := by
  induction entries generalizing results console with
  | nil => simp at hm
  | cons e rest ih =>
    obtain ⟨m0, rs0⟩ := e
    simp only [List.map_cons, List.nodup_cons] at hnd
    obtain ⟨c1, hc⟩ := mainResults_cons m0 rs0 rest results console
    rw [hc]
    rcases List.mem_cons.mp hm with h | h
    · obtain ⟨rfl, rfl⟩ := Prod.mk.inj h
      rw [mainResults_get_other _ _ _ _ hnd.1, JSObject.get_set]
      simp
    · exact ih _ _ hnd.2 h

theorem mainResults_keys (entries : List (String × List OllamaResponse))
    (results : JSObject (Option AvgStats)) (console : Console)
    (hnd : (entries.map Prod.fst).Nodup)
    (hdis : ∀ k ∈ entries.map Prod.fst, k ∉ results.map Prod.fst) :
    (mainResults entries results console).1.map Prod.fst =
      results.map Prod.fst ++ entries.map Prod.fst := by
  induction entries generalizing results console with
  | nil => simp [mainResults]
  | cons e rest ih =>
    obtain ⟨m0, rs0⟩ := e
    simp only [List.map_cons, List.nodup_cons] at hnd
    obtain ⟨c1, hc⟩ := mainResults_cons m0 rs0 rest results console
    have h0 : m0 ∉ results.map Prod.fst := hdis m0 (by simp)
    rw [hc, ih _ _ hnd.2, JSObject.keys_set _ _ _ h0]
    · simp
    · intro k hk
      rw [JSObject.keys_set _ _ _ h0]
      simp only [List.mem_append, List.mem_singleton, not_or]
      refine ⟨hdis k (by simp [hk]), ?_⟩
      rintro rfl
      exact hnd.1 hk

/-- C5. In the loop of `main` that assembles the report, run on the entries of a mapping
from model names to lists of responses (the names pairwise distinct, as the property
names of an object are), the report has exactly the models of the mapping, in their
order; the entry of a model is `null` when its list is empty and the record of
`averageStats` on the list otherwise, hence `null` exactly when the list is empty. -/
theorem C5_report_entries (entries : List (String × List OllamaResponse))
    (console : Console) (hnd : (entries.map Prod.fst).Nodup) :
    (mainResults entries [] console).1.map Prod.fst = entries.map Prod.fst ∧
    ∀ modelName responses, (modelName, responses) ∈ entries →
      (responses = [] → (mainResults entries [] console).1.get modelName = some none) ∧
      (responses ≠ [] → ∀ c, (mainResults entries [] console).1.get modelName =
        some (some (averageStats responses c).1)) ∧
      ((mainResults entries [] console).1.get modelName = some none ↔ responses = []) := by
  refine ⟨by simpa using mainResults_keys entries [] console hnd (by simp), ?_⟩
  intro m rs hm
  have h := mainResults_get entries [] console hnd m rs hm
  rw [h]
  cases rs with
  | nil => simp
  | cons r rs => simp [averageStats]

/-- Witness of C5: a model with one response and a model without any. -/
theorem C5_report_entries_witness :
    ([("llama2:latest", [sampleA]), ("phi:latest", [])].map Prod.fst).Nodup ∧
      (mainResults [("llama2:latest", [sampleA]), ("phi:latest", [])] [] []).1.get
        "phi:latest" = some none ∧
      (mainResults [("llama2:latest", [sampleA]), ("phi:latest", [])] [] []).1.get
        "llama2:latest" = some (some (averageStats [sampleA] []).1) :=
  ⟨by decide,
    ((C5_report_entries [("llama2:latest", [sampleA]), ("phi:latest", [])] []
      (by decide)).2 "phi:latest" [] (by simp)).1 rfl,
    ((C5_report_entries [("llama2:latest", [sampleA]), ("phi:latest", [])] []
      (by decide)).2 "llama2:latest" [sampleA] (by simp)).2.1 (by simp) []⟩

/-- C6. A raw record without `load_duration` is constructed with `load_duration = 0`, and
two raw records that differ at most in `load_duration` (any value, or absent) give samples
on which `calculateStats` returns the same record. -/
theorem C6_load_duration_unused (data : RawData) (l l' : Option Int) :
    (OllamaResponse.new { data with load_duration := none }).load_duration = 0 ∧
    calculateStats (OllamaResponse.new { data with load_duration := l }) =
      calculateStats (OllamaResponse.new { data with load_duration := l' }) :=
  ⟨rfl, rfl⟩

theorem averageStats_sampleA (console : Console) :
    (averageStats [sampleA] console).1 =
      { promptTokensPerSecond := "5.00", responseTokensPerSecond := "10.00",
        totalTokensPerSecond := "9.17", totalTokens := "110.00",
        totalDuration := "12.00" } := by
  obtain ⟨w1, w2, w3, w4, w5⟩ := calculateStats_wellFormed sampleA
  show ({ promptTokensPerSecond := averageField [calculateStats sampleA] _
          responseTokensPerSecond := averageField [calculateStats sampleA] _
          totalTokensPerSecond := averageField [calculateStats sampleA] _
          totalTokens := averageField [calculateStats sampleA] _
          totalDuration := averageField [calculateStats sampleA] _ } : AvgStats) = _
  rw [averageField_single _ _ w1, averageField_single _ _ w2, averageField_single _ _ w3,
    averageField_single _ _ w4, averageField_single _ _ w5, calculateStats_sampleA]
  simp only [sampleA_p_str, sampleA_q_str, sampleA_t_str, sampleA_n_str, sampleA_d_str]

/-- C7, as stated, fails: on the sample of the scenarios `averageStats` writes one
message to an empty console. -/
theorem C7_counterexample :
    (averageStats [sampleA] []).2 =
      [LogLine.log ("Average Stats:\n    Prompt Tokens/s: 5.00\n    Response Tokens/s: 10.00" ++
        "\n    Total Tokens/s: 9.17\n    Avg Total Tokens: 110.00" ++
        "\n    Avg Total Duration: 12.00s\n    ")] ∧
    (averageStats [sampleA] []).2 ≠ [] := by
  have h : (averageStats [sampleA] []).2 =
      [LogLine.log (averageStatsMessage (averageStats [sampleA] []).1)] := rfl
  rw [h, averageStats_sampleA]
  constructor
  · decide
  · simp

/-- C7 (amended). `averageStats` changes no state but the console: it leaves the earlier
messages in place and appends exactly one, the `Average Stats` block of the five fields
it returns; the record it returns does not depend on the console. -/
theorem C7_averageStats_effect (rs : List OllamaResponse) (console : Console) :
    (averageStats rs console).2 =
      console ++ [LogLine.log (averageStatsMessage (averageStats rs console).1)] ∧
    (averageStats rs console).1 = (averageStats rs []).1 :=
  ⟨rfl, rfl⟩

/-- C8. On a reply of the server with a list of models, `getBenchmarkModels` returns the
names that are not in the skip list, in their order and with their multiplicity; with an
empty skip list it returns all names, and no name of the skip list is returned. -/
theorem C8_getBenchmarkModels_filter (models : List ModelTag) (skipModels : List String)
    (console : Console) :
    (getBenchmarkModels skipModels (TagsReply.ok models) console).1 =
      (models.map (fun model => model.name)).filter (fun name => decide (name ∉ skipModels)) ∧
    (skipModels = [] →
      (getBenchmarkModels skipModels (TagsReply.ok models) console).1 =
        models.map (fun model => model.name)) ∧
    (∀ name ∈ (getBenchmarkModels skipModels (TagsReply.ok models) console).1,
      name ∉ skipModels) ∧
    (∀ name, name ∉ skipModels →
      (getBenchmarkModels skipModels (TagsReply.ok models) console).1.count name =
        (models.map (fun model => model.name)).count name) := by
  have h : (getBenchmarkModels skipModels (TagsReply.ok models) console).1 =
      (models.map (fun model => model.name)).filter
        (fun name => decide (name ∉ skipModels)) := by
    simp only [getBenchmarkModels]
    cases skipModels with
    | nil => simp
    | cons a l =>
      simp only [List.length_cons, ne_eq, Nat.add_one_ne_zero, not_false_eq_true, if_true]
      congr 1
      funext name
      simp
  refine ⟨h, ?_, ?_, ?_⟩
  · intro hs
    rw [h, hs]
    simp
  · intro name hn
    rw [h] at hn
    simpa using (List.mem_filter.mp hn).2
  · intro name hn
    rw [h, List.count_filter]
    simpa using hn

/-! ### Bounds -/

/-- C9, as stated, fails: one token in 25000075 ns and two tokens in 50000150 ns have the
same exact rate, and the prompt and response rates are the same double; the total rate,
three separately rounded operations on other numbers, is the next double below. -/
theorem C9_counterexample :
    0 ≤ sampleMediant.prompt_eval_count ∧ 0 ≤ sampleMediant.eval_count ∧
      0 < sampleMediant.prompt_eval_duration ∧ 0 < sampleMediant.eval_duration ∧
      (calculateStats sampleMediant).promptTokensPerSecond =
        .fin (5629482645765183 / 140737488355328) ∧
      (calculateStats sampleMediant).responseTokensPerSecond =
        .fin (5629482645765183 / 140737488355328) ∧
      (calculateStats sampleMediant).totalTokensPerSecond =
        .fin (2814741322882591 / 70368744177664) ∧
      (2814741322882591 / 70368744177664 : ℚ) <
        min (5629482645765183 / 140737488355328) (5629482645765183 / 140737488355328) := by
  refine ⟨by decide, by decide, by decide, by decide, ?_, ?_, ?_, by norm_num⟩ <;>
    rw [calculateStats_sampleMediant]

/-- C9 (amended). On a sample with non-negative counts and positive evaluation durations
of at most `2^52` (total duration from `0` to `2^53`), the five metrics of
`calculateStats` are finite and non-negative, and the total rate lies between the smaller
and the larger of the prompt and response rates up to the roundings:
`min(p, r) * (1 - 2^-53)^6 ≤ total ≤ max(p, r) * (1 + 2^-53)^9`. -/
theorem C9_calculateStats_bounds (r : OllamaResponse) (h : Spec.BoundedSample r) :
    ∃ p q t n d : ℚ,
      calculateStats r =
        { promptTokensPerSecond := .fin p, responseTokensPerSecond := .fin q,
          totalTokensPerSecond := .fin t, totalTokens := .fin n, totalDuration := .fin d } ∧
      min p q * (1 - Spec.u) ^ 6 ≤ t ∧ t ≤ max p q * (1 + Spec.u) ^ 9 ∧
      0 ≤ p ∧ 0 ≤ q ∧ 0 ≤ t ∧ 0 ≤ n ∧ 0 ≤ d := by
  obtain ⟨p, q, t, d, hrec, hp, hq, ht, hd, -⟩ := calculateStats_within r h
  obtain ⟨c1, c2, c3, c4, d1, d2, d3, d4, t1, t2⟩ := h
  have e1 : (0 : ℚ) ≤ (r.prompt_eval_count : ℚ) := by exact_mod_cast c1
  have e2 : (0 : ℚ) ≤ (r.eval_count : ℚ) := by exact_mod_cast c3
  have e3 : (0 : ℚ) < (r.prompt_eval_duration : ℚ) := by exact_mod_cast d1
  have e4 : (0 : ℚ) < (r.eval_duration : ℚ) := by exact_mod_cast d3
  have e5 : (0 : ℚ) ≤ (r.total_duration : ℚ) := by exact_mod_cast t1
  have B : (0 : ℚ) < (r.prompt_eval_duration : ℚ) / 10 ^ 9 := by positivity
  have D : (0 : ℚ) < (r.eval_duration : ℚ) / 10 ^ 9 := by positivity
  have hP : (0 : ℚ) ≤ (r.prompt_eval_count : ℚ) / ((r.prompt_eval_duration : ℚ) / 10 ^ 9) := by
    positivity
  have hQ : (0 : ℚ) ≤ (r.eval_count : ℚ) / ((r.eval_duration : ℚ) / 10 ^ 9) := by
    positivity
  have hT : (0 : ℚ) ≤ ((r.prompt_eval_count + r.eval_count : ℤ) : ℚ) /
      (((r.prompt_eval_duration + r.eval_duration : ℤ) : ℚ) / 10 ^ 9) := by
    push_cast; positivity
  have hDn : (0 : ℚ) ≤ (r.total_duration : ℚ) / 10 ^ 9 := by positivity
  have hn : (0 : ℚ) ≤ ((r.prompt_eval_count + r.eval_count : ℤ) : ℚ) := by
    push_cast; positivity
  have hp0 := hp.nonneg hP
  have hq0 := hq.nonneg hQ
  have m := mediant_bounds (r.prompt_eval_count : ℚ) (r.eval_count : ℚ) _ _ B D
  have eT : ((r.prompt_eval_count + r.eval_count : ℤ) : ℚ) /
      (((r.prompt_eval_duration + r.eval_duration : ℤ) : ℚ) / 10 ^ 9) =
      ((r.prompt_eval_count : ℚ) + (r.eval_count : ℚ)) /
        ((r.prompt_eval_duration : ℚ) / 10 ^ 9 + (r.eval_duration : ℚ) / 10 ^ 9) := by
    push_cast; ring
  rw [eT] at ht hT
  have hu3 : (0 : ℚ) ≤ (1 - Spec.u) ^ 3 := pow_nonneg Spec.one_sub_u_pos.le 3
  have hv3 : (0 : ℚ) ≤ (1 + Spec.u) ^ 3 := pow_nonneg (by have := Spec.u_pos; linarith) 3
  refine ⟨p, q, t, _, d, hrec, ?_, ?_, hp0, hq0, ht.nonneg hT, hn, hd.nonneg hDn⟩
  · have a1 : min p q * (1 - Spec.u) ^ 3 ≤
        min ((r.prompt_eval_count : ℚ) / ((r.prompt_eval_duration : ℚ) / 10 ^ 9))
          ((r.eval_count : ℚ) / ((r.eval_duration : ℚ) / 10 ^ 9)) := by
      apply le_min
      · exact le_trans (mul_le_mul_of_nonneg_right (min_le_left p q) hu3) (hp.mul_le_exact hP)
      · exact le_trans (mul_le_mul_of_nonneg_right (min_le_right p q) hu3) (hq.mul_le_exact hQ)
    have a2 : min p q * (1 - Spec.u) ^ 3 * (1 - Spec.u) ^ 3 ≤
        ((r.prompt_eval_count : ℚ) + (r.eval_count : ℚ)) /
          ((r.prompt_eval_duration : ℚ) / 10 ^ 9 + (r.eval_duration : ℚ) / 10 ^ 9) *
            (1 - Spec.u) ^ 3 :=
      mul_le_mul_of_nonneg_right (le_trans a1 m.1) hu3
    have a3 : min p q * (1 - Spec.u) ^ 6 = min p q * (1 - Spec.u) ^ 3 * (1 - Spec.u) ^ 3 := by
      ring
    rw [a3]
    exact le_trans a2 ht.1
  · have b1 : max ((r.prompt_eval_count : ℚ) / ((r.prompt_eval_duration : ℚ) / 10 ^ 9))
          ((r.eval_count : ℚ) / ((r.eval_duration : ℚ) / 10 ^ 9)) ≤
        max p q * (1 + Spec.u) ^ (2 * 3) := by
      have hv6 : (0 : ℚ) ≤ (1 + Spec.u) ^ (2 * 3) :=
        pow_nonneg (by have := Spec.u_pos; linarith) _
      apply max_le
      · exact le_trans (hp.exact_le_mul hP) (mul_le_mul_of_nonneg_right (le_max_left p q) hv6)
      · exact le_trans (hq.exact_le_mul hQ) (mul_le_mul_of_nonneg_right (le_max_right p q) hv6)
    have b2 : ((r.prompt_eval_count : ℚ) + (r.eval_count : ℚ)) /
          ((r.prompt_eval_duration : ℚ) / 10 ^ 9 + (r.eval_duration : ℚ) / 10 ^ 9) *
            (1 + Spec.u) ^ 3 ≤ max p q * (1 + Spec.u) ^ (2 * 3) * (1 + Spec.u) ^ 3 :=
      mul_le_mul_of_nonneg_right (le_trans m.2 b1) hv3
    have b3 : max p q * (1 + Spec.u) ^ 9 =
        max p q * (1 + Spec.u) ^ (2 * 3) * (1 + Spec.u) ^ 3 := by ring
    rw [b3]
    exact le_trans ht.2 b2

/-- Witness of C9 on the sample of the scenarios. -/
theorem C9_calculateStats_bounds_witness :
    Spec.BoundedSample sampleA ∧
      ∃ p q t n d : ℚ,
        calculateStats sampleA =
          { promptTokensPerSecond := .fin p, responseTokensPerSecond := .fin q,
            totalTokensPerSecond := .fin t, totalTokens := .fin n,
            totalDuration := .fin d } ∧
        min p q * (1 - Spec.u) ^ 6 ≤ t ∧ t ≤ max p q * (1 + Spec.u) ^ 9 ∧
        0 ≤ p ∧ 0 ≤ q ∧ 0 ≤ t ∧ 0 ≤ n ∧ 0 ≤ d :=
  ⟨sampleA_bounded, C9_calculateStats_bounds sampleA sampleA_bounded⟩

/-! ### Order of the samples -/

theorem averageStats_swap (a b : OllamaResponse) (rest : List OllamaResponse)
    (console : Console) :
    averageStats (a :: b :: rest) console = averageStats (b :: a :: rest) console := by
  obtain ⟨a1, a2, a3, a4, a5⟩ := calculateStats_wellFormed a
  obtain ⟨b1, b2, b3, b4, b5⟩ := calculateStats_wellFormed b
  have e1 := averageField_swap (calculateStats a) (calculateStats b)
    (rest.map calculateStats) (fun s => s.promptTokensPerSecond) a1 b1
  have e2 := averageField_swap (calculateStats a) (calculateStats b)
    (rest.map calculateStats) (fun s => s.responseTokensPerSecond) a2 b2
  have e3 := averageField_swap (calculateStats a) (calculateStats b)
    (rest.map calculateStats) (fun s => s.totalTokensPerSecond) a3 b3
  have e4 := averageField_swap (calculateStats a) (calculateStats b)
    (rest.map calculateStats) (fun s => s.totalTokens) a4 b4
  have e5 := averageField_swap (calculateStats a) (calculateStats b)
    (rest.map calculateStats) (fun s => s.totalDuration) a5 b5
  simp only [averageStats, List.map_cons, e1, e2, e3, e4, e5]

theorem mean_perm (rs rs' : List OllamaResponse) (h : rs.Perm rs')
    (metric : OllamaResponse → ℚ) :
    Spec.mean (rs'.map metric) = Spec.mean (rs.map metric) := by
  unfold Spec.mean
  rw [(h.map metric).sum_eq, (h.map metric).length_eq]

theorem roundedMeanField_perm (rs rs' : List OllamaResponse) (h : rs.Perm rs')
    (metric : OllamaResponse → ℚ) (field : String)
    (hf : Spec.RoundedMeanField rs' metric field) : Spec.RoundedMeanField rs metric field := by
  unfold Spec.RoundedMeanField Spec.summaryField at *
  rw [mean_perm rs rs' h metric, h.length_eq.symm] at hf
  exact hf

/-- C10, as stated, fails: with total durations of 5 ms, 5 ms and 65 ms the averaged
duration prints as `0.02`, and with the same samples in the order 65 ms, 5 ms, 5 ms as
`0.03`. -/
theorem C10_counterexample :
    [sample5ms, sample5ms, sample65ms].Perm [sample65ms, sample5ms, sample5ms] ∧
      [sample5ms, sample5ms, sample65ms] ≠ [] ∧
      (∀ r ∈ [sample5ms, sample5ms, sample65ms],
        0 < r.prompt_eval_duration ∧ 0 < r.eval_duration ∧ 0 < r.total_duration) ∧
      (averageStats [sample5ms, sample5ms, sample65ms] []).1.totalDuration = "0.02" ∧
      (averageStats [sample65ms, sample5ms, sample5ms] []).1.totalDuration = "0.03" := by
  refine ⟨?_, by simp, ?_, average_5_5_65, average_65_5_5⟩
  · exact ((List.Perm.swap sample65ms sample5ms []).cons sample5ms).trans
      (List.Perm.swap sample65ms sample5ms [sample5ms])
  · intro r hr
    simp only [List.mem_cons, List.mem_singleton, List.not_mem_nil, or_false] at hr
    rcases hr with rfl | rfl | rfl <;>
      (simp only [sample5ms, sample65ms, sampleA]; decide)

/-- C10 (amended). Exchanging the first two samples of a list never changes what
`averageStats` returns and logs, so two samples may come in either order.  For every
permutation of a non-empty list of fewer than `2^32` samples with non-negative counts and
positive evaluation durations of at most `2^52`, each field of the permuted list is the
two-decimal string of a number within `length + 4` roundings of the same arithmetic mean,
hence the same field wherever the half-up rounding is the same over that range. -/
theorem C10_averageStats_order (rs rs' : List OllamaResponse) (console : Console)
    (h : rs.Perm rs') (hne : rs ≠ []) (hlen : rs.length < 2 ^ 32)
    (hv : ∀ r ∈ rs, Spec.BoundedSample r) :
    (∀ a b rest, averageStats (a :: b :: rest) console =
      averageStats (b :: a :: rest) console) ∧
    Spec.RoundedMeanField rs Spec.promptTokensPerSecond
      (averageStats rs' console).1.promptTokensPerSecond ∧
    Spec.RoundedMeanField rs Spec.responseTokensPerSecond
      (averageStats rs' console).1.responseTokensPerSecond ∧
    Spec.RoundedMeanField rs Spec.totalTokensPerSecond
      (averageStats rs' console).1.totalTokensPerSecond ∧
    Spec.RoundedMeanField rs Spec.totalTokens (averageStats rs' console).1.totalTokens ∧
    Spec.RoundedMeanField rs Spec.totalDuration
      (averageStats rs' console).1.totalDuration := by
  have hne' : rs' ≠ [] := by
    intro h0
    rw [h0] at h
    exact hne h.eq_nil
  have hlen' : rs'.length < 2 ^ 32 := by rw [← h.length_eq]; exact hlen
  have hv' : ∀ r ∈ rs', Spec.BoundedSample r := fun r hr => hv r (h.mem_iff.mpr hr)
  obtain ⟨h1, h2, h3, h4, h5⟩ := fields_within rs' hv'
  exact ⟨fun a b rest => averageStats_swap a b rest console,
    roundedMeanField_perm rs rs' h _ _ (averageField_rounded _ _ rs' hne' hlen' h1),
    roundedMeanField_perm rs rs' h _ _ (averageField_rounded _ _ rs' hne' hlen' h2),
    roundedMeanField_perm rs rs' h _ _ (averageField_rounded _ _ rs' hne' hlen' h3),
    roundedMeanField_perm rs rs' h _ _ (averageField_rounded _ _ rs' hne' hlen' h4),
    roundedMeanField_perm rs rs' h _ _ (averageField_rounded _ _ rs' hne' hlen' h5)⟩

/-- Witness of C10: the samples of the scenarios in the two orders. -/
theorem C10_averageStats_order_witness :
    [sampleA, sampleB].Perm [sampleB, sampleA] ∧ [sampleA, sampleB] ≠ [] ∧
      [sampleA, sampleB].length < 2 ^ 32 ∧
      (∀ r ∈ [sampleA, sampleB], Spec.BoundedSample r) ∧
      averageStats [sampleA, sampleB] [] = averageStats [sampleB, sampleA] [] :=
  ⟨List.Perm.swap _ _ _, by simp, by simp, bounded_pair _ _ sampleA_bounded sampleB_bounded,
    (C10_averageStats_order [sampleA, sampleB] [sampleB, sampleA] [] (List.Perm.swap _ _ _)
      (by simp) (by simp) (bounded_pair _ _ sampleA_bounded sampleB_bounded)).1
        sampleA sampleB []⟩

end LlmBenchmark
